import Mathlib

/-!
Verification of the `tkhq/solana-parser` Solana transaction decoder.

The Rust sources (`src/solana/parser.rs`, `src/solana/idl_parser.rs`,
`src/solana/structs.rs`) are shallowly embedded below:

* bytes are `Nat` values (always `< 256` when they originate from a parsed
  buffer); byte buffers are `List Nat`;
* Rust `Result<T, Box<dyn Error>>` becomes `Except Err T`, where `Err` is an
  inductive with one constructor per distinct error string built by the
  source (the constructor carries the format arguments of the string);
* functions that can additionally panic (slice indexing out of bounds)
  return `PResult`, which has a third `panic` outcome;
* 32-byte public keys are kept as their raw byte lists.  The source renders
  them base58 before comparing or returning them; base58 rendering of a
  fixed-width byte array is injective, so key comparisons and key-valued
  output fields are modelled on the raw bytes directly.
-/

namespace Solana

/-- Parse errors of the Solana byte decoder (`parser.rs`).  Each constructor
mirrors one distinct error string produced by the source; `insufficient`
carries the section name handed to `validate_length`. -/
inductive Err where
  /-- "Transaction is empty" -/
  | emptyTransaction : Err
  /-- "unsigned transaction provided is invalid when converted to bytes" -/
  | invalidHex : Err
  /-- "Unsigned transaction provided is incorrectly formatted, error while parsing {section}" -/
  | insufficient (sec : String) : Err
  /-- "error parsing unsigned transaction: unable to parse compact array header, not enough bytes" -/
  | compactNotEnoughBytes : Err
  /-- "error parsing unsigned transaction: third byte in compact u16 has more than it's 2 least significant bits set" -/
  | compactThirdByteTooBig : Err
  /-- "Legacy Transaction formatted incorrectly contains extraneous bytes at the end" -/
  | extraneousLegacy : Err
  /-- "Solana V0 Transaction formatted incorrectly contains extraneous bytes at the end" -/
  | extraneousV0 : Err
  /-- "Legacy transaction instruction account index out of bounds" -/
  | legacyLookupOutOfBounds : Err
  /-- "Versioned transaction instruction account index out of bounds" -/
  | v0LookupOutOfBounds : Err
  /-- "Instruction account index out of bounds for account keys array" -/
  | staticIndexOutOfBounds : Err
  /-- "Could not parse system instruction" -/
  | couldNotParseSystemInstruction : Err
  /-- "System Program Transfer Instruction should have exactly 2 arguments" -/
  | systemTransferArgCount : Err
  /-- "Error while parsing spl instruction data header" -/
  | splHeader : Err
  /-- "Error while parsing spl instruction {variant -- field}": the argument
  names the instruction variant and field whose bytes were truncated. -/
  | splField (which : String) : Err
  /-- "Invalid number of accounts provided for spl token transfer instruction" -/
  | splAccountCount : Err
  /-- "Error parsing full transaction. If this is just a message ... parse using the --message flag. Parsing Error: {e}" -/
  | wrappedFullTx (e : Err) : Err
  /-- "Error parsing message. If this is a ... full transaction ... parse using the --transaction flag. Parsing Error: {e}" -/
  | wrappedMessage (e : Err) : Err
  /-- "Unable to parse transaction: {e}" (added by `parse_transaction`) -/
  | unableToParse (e : Err) : Err
  deriving Repr, DecidableEq

/-- Outcome of a Rust computation that may return, error, or panic
(out-of-bounds slice indexing aborts the process instead of returning). -/
inductive PResult (α : Type) where
  | ok (a : α) : PResult α
  | err (e : Err) : PResult α
  | panic : PResult α
  deriving Repr, DecidableEq

/-- Lift an `Except` into `PResult` (the `?` operator on a non-panicking call). -/
def PResult.ofExcept {α : Type} : Except Err α → PResult α
  | .ok a => .ok a
  | .error e => .err e

/-- `validate_length` (parser.rs): error naming the section when fewer than
`length` bytes remain. -/
def validate_length (bytes : List Nat) (length : Nat) (sec : String) : Except Err Unit :=
  if bytes.length < length then .error (.insufficient sec) else .ok ()

/-- The loop of `read_compact_u16` (parser.rs).  `value` and `shift` are the
mutable registers of the Rust loop; one byte is consumed per iteration.
`value` is a `u16`, hence the `% 65536` on the shifted contribution. -/
def read_compact_u16_loop : List Nat → Nat → Nat → Except Err (Nat × List Nat)
  | [], _, _ => .error .compactNotEnoughBytes
  | b :: rest, value, shift =>
    if shift = 14 ∧ b &&& 0xfc ≠ 0 then
      .error .compactThirdByteTooBig
    else if b &&& 0x80 = 0 then
      .ok (value ||| ((b &&& 0x7f) <<< shift % 65536), rest)
    else
      read_compact_u16_loop rest (value ||| ((b &&& 0x7f) <<< shift % 65536)) (shift + 7)

/-- `read_compact_u16` (parser.rs): decode a 1-3 byte compact-u16 header,
returning the value and the remaining bytes. -/
def read_compact_u16 (tx_body_remainder : List Nat) : Except Err (Nat × List Nat) :=
  read_compact_u16_loop tx_body_remainder 0 0

/-! ## Structural decoder (`parser.rs`)

The section parsers below mirror the Rust functions one-to-one.  Slice
indexing such as `bytes[i]` always happens after a `validate_length` call in
the source; it is rendered as `List.getD _ _ 0`, which agrees with the Rust
read whenever the validated bound holds.  A sub-slice `bytes[a..b]` becomes
`(List.drop a).take (b - a)`. -/

/-- Length of a solana signature in bytes. -/
def LEN_SOL_SIGNATURE_BYTES : Nat := 64
/-- Length of a solana account key in bytes. -/
def LEN_SOL_ACCOUNT_KEY_BYTES : Nat := 32
/-- Length of the one-byte header of a compact array. -/
def LEN_ARRAY_HEADER_BYTES : Nat := 1
/-- Length of a solana message header in bytes. -/
def LEN_MESSAGE_HEADER_BYTES : Nat := 3
/-- Versioned transactions have a prefix of 0x80. -/
def V0_TRANSACTION_INDICATOR : Nat := 0x80

/-- A 32-byte Solana public key, kept as its raw bytes (the source renders
keys base58; that rendering is injective on 32-byte arrays, so comparisons
and outputs are modelled on the bytes themselves). -/
abbrev Pubkey := List Nat

/-- A 64-byte signature (`type Signature = Vec<u8>` in parser.rs). -/
abbrev Signature := List Nat

/-- `solana_sdk::message::MessageHeader`. -/
structure MessageHeader where
  num_required_signatures : Nat
  num_readonly_signed_accounts : Nat
  num_readonly_unsigned_accounts : Nat
  deriving Repr, DecidableEq

/-- `solana_sdk::instruction::CompiledInstruction`. -/
structure CompiledInstruction where
  program_id_index : Nat
  accounts : List Nat
  data : List Nat
  deriving Repr, DecidableEq

/-- `solana_sdk::message::v0::MessageAddressTableLookup`. -/
structure MessageAddressTableLookup where
  account_key : Pubkey
  writable_indexes : List Nat
  readonly_indexes : List Nat
  deriving Repr, DecidableEq

/-- `solana_sdk::message::Message` (the legacy message). -/
structure LegacyMessage where
  header : MessageHeader
  account_keys : List Pubkey
  recent_blockhash : List Nat
  instructions : List CompiledInstruction
  deriving Repr, DecidableEq

/-- `solana_sdk::message::v0::Message`. -/
structure V0Message where
  header : MessageHeader
  account_keys : List Pubkey
  recent_blockhash : List Nat
  instructions : List CompiledInstruction
  address_table_lookups : List MessageAddressTableLookup
  deriving Repr, DecidableEq

/-- `solana_sdk::message::VersionedMessage`. -/
inductive VersionedMessage where
  | legacy (m : LegacyMessage)
  | v0 (m : V0Message)
  deriving Repr, DecidableEq

/-- `parse_signatures` (parser.rs): one-byte count, then count × 64-byte
signatures.  The `chunks_exact(64).take(count)` of the source is rendered as
a map over the chunk start offsets. -/
def parse_signatures (unsigned_tx_bytes : List Nat) :
    Except Err (List Signature × List Nat) :=
  match validate_length unsigned_tx_bytes LEN_ARRAY_HEADER_BYTES "Signature Array Header" with
  | .error e => .error e
  | .ok _ =>
    let num_signatures := unsigned_tx_bytes.getD 0 0
    let parse_len := 1 + num_signatures * LEN_SOL_SIGNATURE_BYTES
    match validate_length unsigned_tx_bytes parse_len "Signatures" with
    | .error e => .error e
    | .ok _ =>
      let signatures := (List.range num_signatures).map fun i =>
        ((unsigned_tx_bytes.drop (1 + i * LEN_SOL_SIGNATURE_BYTES)).take
          LEN_SOL_SIGNATURE_BYTES)
      .ok (signatures, unsigned_tx_bytes.drop parse_len)

/-- `parse_header` (parser.rs): the three header count bytes. -/
def parse_header (tx_body_remainder : List Nat) :
    Except Err (MessageHeader × List Nat) :=
  match validate_length tx_body_remainder LEN_MESSAGE_HEADER_BYTES "Message Header" with
  | .error e => .error e
  | .ok _ =>
    .ok ({ num_required_signatures := tx_body_remainder.getD 0 0,
           num_readonly_signed_accounts := tx_body_remainder.getD 1 0,
           num_readonly_unsigned_accounts := tx_body_remainder.getD 2 0 },
         tx_body_remainder.drop LEN_MESSAGE_HEADER_BYTES)

/-- `parse_accounts` (parser.rs): one-byte count, then count × 32-byte static
account keys. -/
def parse_accounts (tx_body_remainder : List Nat) :
    Except Err (List Pubkey × List Nat) :=
  match validate_length tx_body_remainder LEN_ARRAY_HEADER_BYTES "Accounts Array Header" with
  | .error e => .error e
  | .ok _ =>
    let accounts_num := tx_body_remainder.getD 0 0
    let len_accounts_array := LEN_SOL_ACCOUNT_KEY_BYTES * accounts_num + LEN_ARRAY_HEADER_BYTES
    match validate_length tx_body_remainder len_accounts_array "Accounts" with
    | .error e => .error e
    | .ok _ =>
      let pubkeys := (List.range accounts_num).map fun i =>
        ((tx_body_remainder.drop (i * LEN_SOL_ACCOUNT_KEY_BYTES + LEN_ARRAY_HEADER_BYTES)).take
          LEN_SOL_ACCOUNT_KEY_BYTES)
      .ok (pubkeys, tx_body_remainder.drop len_accounts_array)

/-- `parse_block_hash` (parser.rs): the 32-byte recent blockhash. -/
def parse_block_hash (tx_body_remainder : List Nat) :
    Except Err (List Nat × List Nat) :=
  match validate_length tx_body_remainder LEN_SOL_ACCOUNT_KEY_BYTES "Block Hash" with
  | .error e => .error e
  | .ok _ =>
    .ok (tx_body_remainder.take LEN_SOL_ACCOUNT_KEY_BYTES,
         tx_body_remainder.drop LEN_SOL_ACCOUNT_KEY_BYTES)

/-- `parse_compact_array_of_bytes` (parser.rs): compact-u16 length header,
then that many raw bytes. -/
def parse_compact_array_of_bytes (tx_body_remainder : List Nat) (sec : String) :
    Except Err (List Nat × List Nat) :=
  match validate_length tx_body_remainder LEN_ARRAY_HEADER_BYTES (sec ++ " Array Header") with
  | .error e => .error e
  | .ok _ =>
    match read_compact_u16 tx_body_remainder with
    | .error e => .error e
    | .ok (length, rest) =>
      let parse_len := length * LEN_ARRAY_HEADER_BYTES
      match validate_length rest parse_len (sec ++ " Array") with
      | .error e => .error e
      | .ok _ => .ok (rest.take parse_len, rest.drop parse_len)

/-- `parse_single_instruction` (parser.rs): program index byte, account-index
compact array, instruction-data compact array. -/
def parse_single_instruction (tx_body_remainder : List Nat) :
    Except Err (CompiledInstruction × List Nat) :=
  match validate_length tx_body_remainder LEN_ARRAY_HEADER_BYTES "Instruction Program Index" with
  | .error e => .error e
  | .ok _ =>
    let program_id_index := tx_body_remainder.getD 0 0
    match parse_compact_array_of_bytes (tx_body_remainder.drop LEN_ARRAY_HEADER_BYTES)
        "Instruction Account Indexes" with
    | .error e => .error e
    | .ok (accounts, r1) =>
      match parse_compact_array_of_bytes r1 "Instruction Data" with
      | .error e => .error e
      | .ok (data, r2) => .ok ({ program_id_index, accounts, data }, r2)

/-- The `for _ in 0..insts_num` loop of `parse_instructions` (parser.rs). -/
def parse_instructions_loop : Nat → List Nat → Except Err (List CompiledInstruction × List Nat)
  | 0, l => .ok ([], l)
  | n + 1, l =>
    match parse_single_instruction l with
    | .error e => .error e
    | .ok (inst, l1) =>
      match parse_instructions_loop n l1 with
      | .error e => .error e
      | .ok (rest, l2) => .ok (inst :: rest, l2)

/-- `parse_instructions` (parser.rs): one-byte count, then that many
instructions. -/
def parse_instructions (tx_body_remainder : List Nat) :
    Except Err (List CompiledInstruction × List Nat) :=
  match validate_length tx_body_remainder LEN_ARRAY_HEADER_BYTES "Instructions Array Header" with
  | .error e => .error e
  | .ok _ =>
    parse_instructions_loop (tx_body_remainder.getD 0 0)
      (tx_body_remainder.drop LEN_ARRAY_HEADER_BYTES)

/-- `parse_single_address_table_lookup` (parser.rs): 32-byte table key,
writable-index compact array, readonly-index compact array. -/
def parse_single_address_table_lookup (tx_body_remainder : List Nat) :
    Except Err (MessageAddressTableLookup × List Nat) :=
  match validate_length tx_body_remainder LEN_SOL_ACCOUNT_KEY_BYTES
      "Address Table Lookup Program Account Key" with
  | .error e => .error e
  | .ok _ =>
    let lookup_table_key := tx_body_remainder.take LEN_SOL_ACCOUNT_KEY_BYTES
    match parse_compact_array_of_bytes (tx_body_remainder.drop LEN_SOL_ACCOUNT_KEY_BYTES)
        "Address Table Lookup Writable Indexes" with
    | .error e => .error e
    | .ok (writable_indexes, r1) =>
      match parse_compact_array_of_bytes r1 "Address Table Lookup Read-Only Indexes" with
      | .error e => .error e
      | .ok (readonly_indexes, r2) =>
        .ok ({ account_key := lookup_table_key, writable_indexes, readonly_indexes }, r2)

/-- The `for _ in 0..lookups_num` loop of `parse_address_table_lookups`. -/
def parse_address_table_lookups_loop :
    Nat → List Nat → Except Err (List MessageAddressTableLookup × List Nat)
  | 0, l => .ok ([], l)
  | n + 1, l =>
    match parse_single_address_table_lookup l with
    | .error e => .error e
    | .ok (lk, l1) =>
      match parse_address_table_lookups_loop n l1 with
      | .error e => .error e
      | .ok (rest, l2) => .ok (lk :: rest, l2)

/-- `parse_address_table_lookups` (parser.rs). -/
def parse_address_table_lookups (tx_body_remainder : List Nat) :
    Except Err (List MessageAddressTableLookup × List Nat) :=
  match validate_length tx_body_remainder LEN_ARRAY_HEADER_BYTES
      "Instructions Address Table Lookup Header" with
  | .error e => .error e
  | .ok _ =>
    parse_address_table_lookups_loop (tx_body_remainder.getD 0 0)
      (tx_body_remainder.drop LEN_ARRAY_HEADER_BYTES)

/-- `parse_solana_legacy_transaction` (parser.rs): header, accounts,
blockhash, instructions, then the end-of-buffer check. -/
def parse_solana_legacy_transaction (tx_body : List Nat) :
    Except Err VersionedMessage :=
  match parse_header tx_body with
  | .error e => .error e
  | .ok (header, r1) =>
    match parse_accounts r1 with
    | .error e => .error e
    | .ok (account_keys, r2) =>
      match parse_block_hash r2 with
      | .error e => .error e
      | .ok (recent_blockhash, r3) =>
        match parse_instructions r3 with
        | .error e => .error e
        | .ok (instructions, r4) =>
          if r4 ≠ [] then .error .extraneousLegacy
          else .ok (.legacy { header, account_keys, recent_blockhash, instructions })

/-- `parse_solana_v0_transaction` (parser.rs): same as legacy plus the
address-table-lookups section before the end-of-buffer check. -/
def parse_solana_v0_transaction (tx_body : List Nat) :
    Except Err VersionedMessage :=
  match parse_header tx_body with
  | .error e => .error e
  | .ok (header, r1) =>
    match parse_accounts r1 with
    | .error e => .error e
    | .ok (account_keys, r2) =>
      match parse_block_hash r2 with
      | .error e => .error e
      | .ok (recent_blockhash, r3) =>
        match parse_instructions r3 with
        | .error e => .error e
        | .ok (instructions, r4) =>
          match parse_address_table_lookups r4 with
          | .error e => .error e
          | .ok (address_table_lookups, r5) =>
            if r5 ≠ [] then .error .extraneousV0
            else .ok (.v0 { header, account_keys, recent_blockhash, instructions,
                            address_table_lookups })

/-- `SolanaTransaction` (parser.rs). -/
structure SolanaTransaction where
  message : VersionedMessage
  signatures : List Signature
  deriving Repr, DecidableEq

/-- One hex digit, as accepted by `u8::from_str_radix(_, 16)`. -/
def hex_digit (c : Char) : Option Nat :=
  if '0' ≤ c ∧ c ≤ '9' then some (c.toNat - '0'.toNat)
  else if 'a' ≤ c ∧ c ≤ 'f' then some (c.toNat - 'a'.toNat + 10)
  else if 'A' ≤ c ∧ c ≤ 'F' then some (c.toNat - 'A'.toNat + 10)
  else none

/-- `u8::from_str_radix` on a two-character chunk (a leading `+` sign with a
single digit is also accepted by the Rust routine). -/
def hex_pair (c1 c2 : Char) : Option Nat :=
  if c1 = '+' then hex_digit c2
  else
    match hex_digit c1, hex_digit c2 with
    | some d1, some d2 => some (16 * d1 + d2)
    | _, _ => none

/-- The `(0..len).step_by(2)` hex-decoding collect of
`parse_solana_transaction`; the caller has already checked even length. -/
def hex_decode_pairs : List Char → Option (List Nat)
  | [] => some []
  | [_] => none
  | c1 :: c2 :: rest =>
    match hex_pair c1 c2, hex_decode_pairs rest with
    | some b, some bs => some (b :: bs)
    | _, _ => none

/-- `parse_solana_transaction` (parser.rs).  In full-transaction mode the
source reads `tx_body[0]` immediately after parsing the signatures; when the
input ends right after the signature array this indexes an empty slice and
the Rust process panics, rendered here as `.panic` (likewise for the
message-mode read `unsigned_tx_bytes[0]`, reachable only through the public
`SolanaTransaction::new`). -/
def parse_solana_transaction (unsigned_tx : String) (full_transaction : Bool) :
    PResult SolanaTransaction :=
  if unsigned_tx.length % 2 ≠ 0 then .err .invalidHex
  else
    match hex_decode_pairs unsigned_tx.data with
    | none => .err .invalidHex
    | some unsigned_tx_bytes =>
      if full_transaction then
        match parse_signatures unsigned_tx_bytes with
        | .error e => .err e
        | .ok (signatures, tx_body) =>
          match tx_body.head? with
          | none => .panic
          | some b =>
            if b = V0_TRANSACTION_INDICATOR then
              match parse_solana_v0_transaction (tx_body.drop LEN_ARRAY_HEADER_BYTES) with
              | .error e => .err (.wrappedFullTx e)
              | .ok message => .ok { message, signatures }
            else
              match parse_solana_legacy_transaction tx_body with
              | .error e => .err (.wrappedFullTx e)
              | .ok message => .ok { message, signatures }
      else
        match unsigned_tx_bytes.head? with
        | none => .panic
        | some b =>
          if b = V0_TRANSACTION_INDICATOR then
            match parse_solana_v0_transaction (unsigned_tx_bytes.drop LEN_ARRAY_HEADER_BYTES) with
            | .error e => .err (.wrappedMessage e)
            | .ok message => .ok { message, signatures := [] }
          else
            match parse_solana_legacy_transaction unsigned_tx_bytes with
            | .error e => .err (.wrappedMessage e)
            | .ok message => .ok { message, signatures := [] }

/-! ## Address resolution (`resolve_address_table_lookup`, parser.rs) -/

/-- `SolanaAccount` (structs.rs); `account_key` keeps the raw key bytes. -/
structure SolanaAccount where
  account_key : Pubkey
  signer : Bool
  writable : Bool
  deriving Repr, DecidableEq, Inhabited

/-- `SolanaSingleAddressTableLookup` (structs.rs); the source stores the
selected index byte widened to `i32`. -/
structure SolanaSingleAddressTableLookup where
  address_table_key : Pubkey
  index : Nat
  writable : Bool
  deriving Repr, DecidableEq, Inhabited

/-- The first `for` loop of `resolve_address_table_lookup` (parser.rs):
walk the writable-index slices in lookup order.  `num_parsed_indexes` is the
running count of already-walked indexes; the source indexes
`l.writable_indexes[lookup_index - num_parsed_indexes]` (rendered as `getD`),
in bounds because `num_parsed_indexes ≤ lookup_index` holds whenever the
loop reaches a lookup. -/
def resolve_writable_loop (lookup_index : Nat) :
    List MessageAddressTableLookup → Nat → Option SolanaSingleAddressTableLookup
  | [], _ => none
  | l :: ls, num_parsed_indexes =>
    if lookup_index < num_parsed_indexes + l.writable_indexes.length then
      some { address_table_key := l.account_key,
             index := l.writable_indexes.getD (lookup_index - num_parsed_indexes) 0,
             writable := true }
    else resolve_writable_loop lookup_index ls (num_parsed_indexes + l.writable_indexes.length)

/-- The second `for` loop of `resolve_address_table_lookup` (parser.rs):
walk the readonly-index slices in the same lookup order, continuing the
`num_parsed_indexes` accumulator (which advances by `readonly_indexes.len()`
here). -/
def resolve_readonly_loop (lookup_index : Nat) :
    List MessageAddressTableLookup → Nat → Option SolanaSingleAddressTableLookup
  | [], _ => none
  | l :: ls, num_parsed_indexes =>
    if lookup_index < num_parsed_indexes + l.readonly_indexes.length then
      some { address_table_key := l.account_key,
             index := l.readonly_indexes.getD (lookup_index - num_parsed_indexes) 0,
             writable := false }
    else resolve_readonly_loop lookup_index ls (num_parsed_indexes + l.readonly_indexes.length)

/-- The value of `num_parsed_indexes` after the writable loop has walked all
lookups without returning: the total number of writable indexes. -/
def total_writable_indexes (ls : List MessageAddressTableLookup) : Nat :=
  (ls.map fun l => l.writable_indexes.length).sum

/-- `resolve_address_table_lookup` (parser.rs).  The `usize` subtraction
`index - account_keys.len()` is rendered as truncating `Nat` subtraction;
the only call site guards `index ≥ account_keys.len()`. -/
def resolve_address_table_lookup (tx : SolanaTransaction) (index : Nat) :
    Except Err SolanaSingleAddressTableLookup :=
  match tx.message with
  | .legacy _ => .error .legacyLookupOutOfBounds
  | .v0 message =>
    let lookup_index := index - message.account_keys.length
    match resolve_writable_loop lookup_index message.address_table_lookups 0 with
    | some r => .ok r
    | none =>
      match resolve_readonly_loop lookup_index message.address_table_lookups
          (total_writable_indexes message.address_table_lookups) with
      | some r => .ok r
      | none => .error .v0LookupOutOfBounds

/-- The logical lookup array of a v0 message: all writable-index slices in
lookup order, then all readonly-index slices in the same order, each entry
paired with its lookup's table key and writability.  (Specification-side
description of the walk performed by `resolve_address_table_lookup`.) -/
def logicalLookupList (m : V0Message) : List SolanaSingleAddressTableLookup :=
  (m.address_table_lookups.flatMap fun l =>
    l.writable_indexes.map fun b =>
      { address_table_key := l.account_key, index := b, writable := true })
  ++ (m.address_table_lookups.flatMap fun l =>
    l.readonly_indexes.map fun b =>
      { address_table_key := l.account_key, index := b, writable := false })

/-! ## Native-program instruction interpreter (`all_instructions_and_transfers`)

Program ids are compared as base58 strings in the source; here the raw
32-byte keys are compared instead (base58 rendering is injective on 32-byte
arrays).  The three recognized program-id constants below are the base58
decodings of the string constants in parser.rs. -/

/-- `SOL_SYSTEM_PROGRAM_KEY` = "11111111111111111111111111111111" (32 zero bytes). -/
def SOL_SYSTEM_PROGRAM_KEY : Pubkey := List.replicate 32 0

/-- `TOKEN_PROGRAM_KEY` = "TokenkegQfeZyiNwAJbNbGKPFXCWuBvf9Ss623VQ5DA". -/
def TOKEN_PROGRAM_KEY : Pubkey :=
  [6, 221, 246, 225, 215, 101, 161, 147, 217, 203, 225, 70, 206, 235, 121, 172,
   28, 180, 133, 237, 95, 91, 55, 145, 58, 140, 245, 133, 126, 255, 0, 169]

/-- `TOKEN_2022_PROGRAM_KEY` = "TokenzQdBNbLqP5VEhdkAS6EPFLC1PHnBqCXEpPxuEb". -/
def TOKEN_2022_PROGRAM_KEY : Pubkey :=
  [6, 221, 246, 225, 238, 117, 143, 222, 24, 66, 93, 188, 228, 108, 205, 218,
   182, 26, 252, 77, 131, 185, 13, 39, 254, 189, 249, 40, 216, 161, 139, 252]

/-- The string form of an `AccountAddress` (`Display` in structs.rs): a
static account renders as the base58 of its key (kept as the raw key here),
and a lookup reference renders as the literal `ADDRESS_TABLE_LOOKUP`, which
is never a base58 key, so the two variants remain distinguishable. -/
inductive AddressString where
  | key (k : Pubkey) : AddressString
  | addressTableLookupLiteral : AddressString
  deriving Repr, DecidableEq

/-- `AccountAddress` (structs.rs; imported as `AddressAccount` in parser.rs). -/
inductive AddressAccount where
  | Static (a : SolanaAccount) : AddressAccount
  | AddressTableLookUp (l : SolanaSingleAddressTableLookup) : AddressAccount
  deriving Repr, DecidableEq, Inhabited

/-- `impl Display for AccountAddress` (structs.rs). -/
def AddressAccount.to_display : AddressAccount → AddressString
  | .Static a => .key a.account_key
  | .AddressTableLookUp _ => .addressTableLookupLiteral

/-- `SolTransfer` (structs.rs); `amount` is the decimal rendering of the
lamports value. -/
structure SolTransfer where
  «from» : AddressString
  «to» : AddressString
  amount : String
  deriving Repr, DecidableEq

/-- `SplTransfer` (structs.rs). -/
structure SplTransfer where
  «from» : AddressString
  «to» : AddressString
  amount : String
  owner : AddressString
  signers : List AddressString
  token_mint : Option AddressString
  decimals : Option String
  fee : Option String
  deriving Repr, DecidableEq

/-- `SolanaInstruction` (structs.rs). -/
structure SolanaInstruction where
  program_key : Pubkey
  accounts : List SolanaAccount
  instruction_data_hex : String
  address_table_lookups : List SolanaSingleAddressTableLookup
  deriving Repr, DecidableEq

/-- One lowercase hex digit. -/
def hex_digit_char (n : Nat) : Char :=
  if n < 10 then Char.ofNat ('0'.toNat + n) else Char.ofNat ('a'.toNat + n - 10)

/-- `hex::encode`: two lowercase hex characters per byte. -/
def hex_encode (bytes : List Nat) : String :=
  ⟨bytes.flatMap fun b => [hex_digit_char (b / 16 % 16), hex_digit_char (b % 16)]⟩

/-- UTF-8 validity (RFC 3629), as enforced by Rust's `str::from_utf8` when
bincode decodes a `String` field. -/
def utf8_valid : List Nat → Bool
  | [] => true
  | b :: rest =>
    if b ≤ 0x7f then utf8_valid rest
    else if 0xc2 ≤ b ∧ b ≤ 0xdf then
      match rest with
      | c1 :: rest2 => decide (0x80 ≤ c1 ∧ c1 ≤ 0xbf) && utf8_valid rest2
      | [] => false
    else if b = 0xe0 then
      match rest with
      | c1 :: c2 :: rest3 =>
        decide (0xa0 ≤ c1 ∧ c1 ≤ 0xbf) && decide (0x80 ≤ c2 ∧ c2 ≤ 0xbf) && utf8_valid rest3
      | _ => false
    else if (0xe1 ≤ b ∧ b ≤ 0xec) ∨ b = 0xee ∨ b = 0xef then
      match rest with
      | c1 :: c2 :: rest3 =>
        decide (0x80 ≤ c1 ∧ c1 ≤ 0xbf) && decide (0x80 ≤ c2 ∧ c2 ≤ 0xbf) && utf8_valid rest3
      | _ => false
    else if b = 0xed then
      match rest with
      | c1 :: c2 :: rest3 =>
        decide (0x80 ≤ c1 ∧ c1 ≤ 0x9f) && decide (0x80 ≤ c2 ∧ c2 ≤ 0xbf) && utf8_valid rest3
      | _ => false
    else if b = 0xf0 then
      match rest with
      | c1 :: c2 :: c3 :: rest4 =>
        decide (0x90 ≤ c1 ∧ c1 ≤ 0xbf) && decide (0x80 ≤ c2 ∧ c2 ≤ 0xbf) &&
          decide (0x80 ≤ c3 ∧ c3 ≤ 0xbf) && utf8_valid rest4
      | _ => false
    else if 0xf1 ≤ b ∧ b ≤ 0xf3 then
      match rest with
      | c1 :: c2 :: c3 :: rest4 =>
        decide (0x80 ≤ c1 ∧ c1 ≤ 0xbf) && decide (0x80 ≤ c2 ∧ c2 ≤ 0xbf) &&
          decide (0x80 ≤ c3 ∧ c3 ≤ 0xbf) && utf8_valid rest4
      | _ => false
    else if b = 0xf4 then
      match rest with
      | c1 :: c2 :: c3 :: rest4 =>
        decide (0x80 ≤ c1 ∧ c1 ≤ 0x8f) && decide (0x80 ≤ c2 ∧ c2 ≤ 0xbf) &&
          decide (0x80 ≤ c3 ∧ c3 ≤ 0xbf) && utf8_valid rest4
      | _ => false
    else false

/-- Read a 4-byte little-endian `u32`. -/
def read_u32_le : List Nat → Option (Nat × List Nat)
  | b0 :: b1 :: b2 :: b3 :: rest =>
    some (b0 + 256 * b1 + 65536 * b2 + 16777216 * b3, rest)
  | _ => none

/-- Read an 8-byte little-endian `u64` (also `unpack_u64` of parser.rs,
whose internal error string is replaced at every call site). -/
def read_u64_le : List Nat → Option (Nat × List Nat)
  | b0 :: b1 :: b2 :: b3 :: b4 :: b5 :: b6 :: b7 :: rest =>
    some (b0 + 256 * b1 + 65536 * b2 + 16777216 * b3 +
          4294967296 * b4 + 1099511627776 * b5 + 281474976710656 * b6 +
          72057594037927936 * b7, rest)
  | _ => none

/-- Read a 32-byte `Pubkey` (serde fixed-size array, no length prefix). -/
def read_pubkey_bytes (l : List Nat) : Option (Pubkey × List Nat) :=
  if 32 ≤ l.length then some (l.take 32, l.drop 32) else none

/-- Read a bincode `String`: `u64` little-endian byte length, then that many
bytes which must be valid UTF-8.  The decoded string is kept as its bytes. -/
def read_bincode_string (l : List Nat) : Option (List Nat × List Nat) :=
  match read_u64_le l with
  | none => none
  | some (len, rest) =>
    if len ≤ rest.length ∧ utf8_valid (rest.take len) then
      some (rest.take len, rest.drop len)
    else none

/-- `solana_sdk::system_instruction::SystemInstruction` (13 serde variants,
indices 0..12).  `String` fields are kept as their UTF-8 bytes. -/
inductive SystemInstruction where
  | CreateAccount (lamports space : Nat) (owner : Pubkey)
  | Assign (owner : Pubkey)
  | Transfer (lamports : Nat)
  | CreateAccountWithSeed (base : Pubkey) (seed : List Nat) (lamports space : Nat) (owner : Pubkey)
  | AdvanceNonceAccount
  | WithdrawNonceAccount (lamports : Nat)
  | InitializeNonceAccount (authorized : Pubkey)
  | AuthorizeNonceAccount (authorized : Pubkey)
  | Allocate (space : Nat)
  | AllocateWithSeed (base : Pubkey) (seed : List Nat) (space : Nat) (owner : Pubkey)
  | AssignWithSeed (base : Pubkey) (seed : List Nat) (owner : Pubkey)
  | TransferWithSeed (lamports : Nat) (from_seed : List Nat) (from_owner : Pubkey)
  | UpgradeNonceAccount
  deriving Repr, DecidableEq

/-- `bincode::deserialize::<SystemInstruction>` under bincode's legacy
configuration (fixed-width little-endian integers, `u32` enum tag, `u64`
string lengths, trailing bytes permitted): `none` models a deserialize
error.  A tag outside `0..=12` is an unknown variant and fails. -/
def bincode_deserialize_system_instruction (data : List Nat) : Option SystemInstruction :=
  match read_u32_le data with
  | none => none
  | some (tag, r) =>
    match tag with
    | 0 =>
      match read_u64_le r with
      | none => none
      | some (lamports, r) =>
        match read_u64_le r with
        | none => none
        | some (space, r) =>
          match read_pubkey_bytes r with
          | none => none
          | some (owner, _) => some (.CreateAccount lamports space owner)
    | 1 =>
      match read_pubkey_bytes r with
      | none => none
      | some (owner, _) => some (.Assign owner)
    | 2 =>
      match read_u64_le r with
      | none => none
      | some (lamports, _) => some (.Transfer lamports)
    | 3 =>
      match read_pubkey_bytes r with
      | none => none
      | some (base, r) =>
        match read_bincode_string r with
        | none => none
        | some (seed, r) =>
          match read_u64_le r with
          | none => none
          | some (lamports, r) =>
            match read_u64_le r with
            | none => none
            | some (space, r) =>
              match read_pubkey_bytes r with
              | none => none
              | some (owner, _) =>
                some (.CreateAccountWithSeed base seed lamports space owner)
    | 4 => some .AdvanceNonceAccount
    | 5 =>
      match read_u64_le r with
      | none => none
      | some (lamports, _) => some (.WithdrawNonceAccount lamports)
    | 6 =>
      match read_pubkey_bytes r with
      | none => none
      | some (authorized, _) => some (.InitializeNonceAccount authorized)
    | 7 =>
      match read_pubkey_bytes r with
      | none => none
      | some (authorized, _) => some (.AuthorizeNonceAccount authorized)
    | 8 =>
      match read_u64_le r with
      | none => none
      | some (space, _) => some (.Allocate space)
    | 9 =>
      match read_pubkey_bytes r with
      | none => none
      | some (base, r) =>
        match read_bincode_string r with
        | none => none
        | some (seed, r) =>
          match read_u64_le r with
          | none => none
          | some (space, r) =>
            match read_pubkey_bytes r with
            | none => none
            | some (owner, _) => some (.AllocateWithSeed base seed space owner)
    | 10 =>
      match read_pubkey_bytes r with
      | none => none
      | some (base, r) =>
        match read_bincode_string r with
        | none => none
        | some (seed, r) =>
          match read_pubkey_bytes r with
          | none => none
          | some (owner, _) => some (.AssignWithSeed base seed owner)
    | 11 =>
      match read_u64_le r with
      | none => none
      | some (lamports, r) =>
        match read_bincode_string r with
        | none => none
        | some (from_seed, r) =>
          match read_pubkey_bytes r with
          | none => none
          | some (from_owner, _) =>
            some (.TransferWithSeed lamports from_seed from_owner)
    | 12 => some .UpgradeNonceAccount
    | _ => none

/-- `SplInstructionData` (parser.rs). -/
inductive SplInstructionData where
  | Transfer (amount : Nat)
  | TransferChecked (amount : Nat) (decimals : Nat)
  | TransferCheckedWithFee (amount : Nat) (decimals : Nat) (fee : Nat)
  | Unsupported
  deriving Repr, DecidableEq

/-- `SplInstructionData::parse_spl_transfer_data` (parser.rs): first byte is
the tag; tag 3 = Transfer, 12 = TransferChecked, 26 then sub-tag 1 =
TransferCheckedWithFee; anything else is `Unsupported`.  Truncated fields
error naming the variant and field. -/
def parse_spl_transfer_data (instruction_data : List Nat) : Except Err SplInstructionData :=
  match instruction_data with
  | [] => .error .splHeader
  | tag :: rest =>
    match tag with
    | 3 =>
      match read_u64_le rest with
      | none => .error (.splField "Transfer -- amount")
      | some (amount, _) => .ok (.Transfer amount)
    | 12 =>
      match read_u64_le rest with
      | none => .error (.splField "TransferChecked -- amount")
      | some (amount, r) =>
        match r with
        | [] => .error (.splField "TransferChecked -- decimals")
        | decimals :: _ => .ok (.TransferChecked amount decimals)
    | 26 =>
      match rest with
      | [] => .error (.splField "TransferCheckedWithFee -- instruction index")
      | transfer_fee_tag :: r =>
        if transfer_fee_tag = 1 then
          match read_u64_le r with
          | none => .error (.splField "TransferCheckedWithFee -- amount")
          | some (amount, r) =>
            match r with
            | [] => .error (.splField "TransferCheckedWithFee -- decimals")
            | decimals :: r =>
              match read_u64_le r with
              | none => .error (.splField "TransferCheckedWithFee -- fee")
              | some (fee, _) => .ok (.TransferCheckedWithFee amount decimals fee)
        else .ok .Unsupported
    | _ => .ok .Unsupported

/-- `get_spl_multisig_signers_if_exist` (parser.rs): accounts beyond the
variant's fixed prefix, rendered to strings. -/
def get_spl_multisig_signers_if_exist (accounts : List AddressAccount)
    (num_accts_before_signer : Nat) : Except Err (List AddressString) :=
  if accounts.length < num_accts_before_signer then .error .splAccountCount
  else .ok ((accounts.drop num_accts_before_signer).map AddressAccount.to_display)

/-- `parse_spl_instruction_data` (parser.rs): build the `SplTransfer` record
for each transfer variant; `Unsupported` yields no record and no error.  The
indexing `accounts[k]` is guarded by the signers call erroring whenever
fewer than the required accounts are present (rendered as `getD`). -/
def parse_spl_instruction_data (token_instruction : SplInstructionData)
    (accounts : List AddressAccount) : Except Err (Option SplTransfer) :=
  match token_instruction with
  | .Transfer amount =>
    match get_spl_multisig_signers_if_exist accounts 3 with
    | .error e => .error e
    | .ok signers =>
      .ok (some { amount := Nat.repr amount,
                  «to» := (accounts.getD 1 default).to_display,
                  «from» := (accounts.getD 0 default).to_display,
                  owner := (accounts.getD 2 default).to_display,
                  signers := signers,
                  decimals := none, fee := none, token_mint := none })
  | .TransferChecked amount decimals =>
    match get_spl_multisig_signers_if_exist accounts 4 with
    | .error e => .error e
    | .ok signers =>
      .ok (some { amount := Nat.repr amount,
                  «to» := (accounts.getD 2 default).to_display,
                  «from» := (accounts.getD 0 default).to_display,
                  token_mint := some (accounts.getD 1 default).to_display,
                  owner := (accounts.getD 3 default).to_display,
                  signers := signers,
                  decimals := some (Nat.repr decimals), fee := none })
  | .TransferCheckedWithFee amount decimals fee =>
    match get_spl_multisig_signers_if_exist accounts 4 with
    | .error e => .error e
    | .ok signers =>
      .ok (some { amount := Nat.repr amount,
                  «to» := (accounts.getD 2 default).to_display,
                  «from» := (accounts.getD 0 default).to_display,
                  token_mint := some (accounts.getD 1 default).to_display,
                  signers := signers,
                  owner := (accounts.getD 3 default).to_display,
                  decimals := some (Nat.repr decimals),
                  fee := some (Nat.repr fee) })
  | .Unsupported => .ok none

/-- `VersionedMessage::static_account_keys`. -/
def VersionedMessage.static_account_keys : VersionedMessage → List Pubkey
  | .legacy m => m.account_keys
  | .v0 m => m.account_keys

/-- The header of either message form. -/
def VersionedMessage.header : VersionedMessage → MessageHeader
  | .legacy m => m.header
  | .v0 m => m.header

/-- The instruction list of either message form. -/
def VersionedMessage.instructions : VersionedMessage → List CompiledInstruction
  | .legacy m => m.instructions
  | .v0 m => m.instructions

/-- `VersionedMessage::is_signer` (solana_sdk): index below the
required-signature count. -/
def SolanaTransaction.is_signer (tx : SolanaTransaction) (i : Nat) : Bool :=
  i < tx.message.header.num_required_signatures

/-- `VersionedMessage::is_maybe_writable(i, None)` (solana_sdk), modelled by
its static writability bands: writable-signed (below
`required - readonly_signed`) or writable-unsigned (at least `required` and
below `|static| - readonly_unsigned`).  The sdk's additional program-id
demotion rules are elided; no claim below depends on this flag. -/
def SolanaTransaction.is_maybe_writable (tx : SolanaTransaction) (i : Nat) : Bool :=
  let h := tx.message.header
  (i < h.num_required_signatures - h.num_readonly_signed_accounts) ∨
  (h.num_required_signatures ≤ i ∧
    i < tx.message.static_account_keys.length - h.num_readonly_unsigned_accounts)

/-- The account-index resolution loop at the top of
`all_instructions_and_transfers` (parser.rs): each instruction account index
resolves to a lookup reference (when at or beyond the static keys) or to a
static account; the three output lists preserve the original order. -/
def resolve_instruction_accounts (tx : SolanaTransaction) :
    List Nat →
    Except Err (List AddressAccount × List SolanaAccount × List SolanaSingleAddressTableLookup)
  | [] => .ok ([], [], [])
  | a :: rest =>
    if tx.message.static_account_keys.length ≤ a then
      match resolve_address_table_lookup tx a with
      | .error e => .error e
      | .ok atlu =>
        match resolve_instruction_accounts tx rest with
        | .error e => .error e
        | .ok (addrs, accts, lkps) =>
          .ok (.AddressTableLookUp atlu :: addrs, accts, atlu :: lkps)
    else
      match tx.message.static_account_keys[a]? with
      | none => .error .staticIndexOutOfBounds
      | some key =>
        match resolve_instruction_accounts tx rest with
        | .error e => .error e
        | .ok (addrs, accts, lkps) =>
          .ok (.Static { account_key := key, signer := tx.is_signer a,
                          writable := tx.is_maybe_writable a } :: addrs,
               { account_key := key, signer := tx.is_signer a,
                 writable := tx.is_maybe_writable a } :: accts,
               lkps)

/-- The per-program `match program_key.as_str()` body of
`all_instructions_and_transfers` (parser.rs): System instructions go
through bincode and may emit a SOL transfer; Token and Token-2022
instructions (two branches with identical bodies in the source) go through
the SPL parser and may emit an SPL transfer; all other programs are
ignored. -/
def interpret_instruction (i : CompiledInstruction) (program_key : Pubkey)
    (account_addresses : List AddressAccount) :
    Except Err (Option SolTransfer × Option SplTransfer) :=
  if program_key = SOL_SYSTEM_PROGRAM_KEY then
    match bincode_deserialize_system_instruction i.data with
    | none => .error .couldNotParseSystemInstruction
    | some si =>
      match si with
      | .Transfer lamports =>
        if account_addresses.length ≠ 2 then .error .systemTransferArgCount
        else
          .ok (some { amount := Nat.repr lamports,
                      «to» := (account_addresses.getD 1 default).to_display,
                      «from» := (account_addresses.getD 0 default).to_display }, none)
      | _ => .ok (none, none)
  else if program_key = TOKEN_PROGRAM_KEY ∨ program_key = TOKEN_2022_PROGRAM_KEY then
    match parse_spl_transfer_data i.data with
    | .error e => .error e
    | .ok ti =>
      match parse_spl_instruction_data ti account_addresses with
      | .error e => .error e
      | .ok o => .ok (none, o)
  else .ok (none, none)

/-- One iteration of the instruction loop of
`all_instructions_and_transfers` (parser.rs).  The program key is
`i.program_id(static_keys)`, which indexes the static keys without a bounds
check in the sdk — an out-of-range `program_id_index` panics. -/
def process_instruction (tx : SolanaTransaction) (i : CompiledInstruction) :
    PResult (SolanaInstruction × Option SolTransfer × Option SplTransfer) :=
  match resolve_instruction_accounts tx i.accounts with
  | .error e => .err e
  | .ok (account_addresses, accounts, address_table_lookups) =>
    match tx.message.static_account_keys[i.program_id_index]? with
    | none => .panic
    | some program_key =>
      match interpret_instruction i program_key account_addresses with
      | .error e => .err e
      | .ok (t, s) =>
        .ok ({ program_key := program_key, accounts := accounts,
               instruction_data_hex := hex_encode i.data,
               address_table_lookups := address_table_lookups }, t, s)

/-- The instruction loop of `all_instructions_and_transfers` (parser.rs):
transfers accumulate in instruction order. -/
def all_instructions_loop (tx : SolanaTransaction) :
    List CompiledInstruction →
    PResult (List SolanaInstruction × List SolTransfer × List SplTransfer)
  | [] => .ok ([], [], [])
  | i :: rest =>
    match process_instruction tx i with
    | .err e => .err e
    | .panic => .panic
    | .ok (inst, t, s) =>
      match all_instructions_loop tx rest with
      | .err e => .err e
      | .panic => .panic
      | .ok (insts, ts, ss) =>
        .ok (inst :: insts, t.toList ++ ts, s.toList ++ ss)

/-- `all_instructions_and_transfers` (parser.rs). -/
def SolanaTransaction.all_instructions_and_transfers (tx : SolanaTransaction) :
    PResult (List SolanaInstruction × List SolTransfer × List SplTransfer) :=
  all_instructions_loop tx tx.message.instructions

/-- `SolanaAddressTableLookup` (structs.rs). -/
structure SolanaAddressTableLookup where
  address_table_key : Pubkey
  writable_indexes : List Nat
  readonly_indexes : List Nat
  deriving Repr, DecidableEq

/-- `SolanaMetadata` (structs.rs); signatures are rendered lowercase hex. -/
structure SolanaMetadata where
  signatures : List String
  account_keys : List Pubkey
  program_keys : List Pubkey
  instructions : List SolanaInstruction
  transfers : List SolTransfer
  spl_transfers : List SplTransfer
  recent_blockhash : List Nat
  address_table_lookups : List SolanaAddressTableLookup
  deriving Repr, DecidableEq

/-- `all_invoked_programs` (parser.rs): static keys referenced as a program
id by at least one instruction (`VersionedMessage::is_invoked`). -/
def SolanaTransaction.all_invoked_programs (tx : SolanaTransaction) : List Pubkey :=
  (List.range tx.message.static_account_keys.length).filterMap fun i =>
    if tx.message.instructions.any fun ins => ins.program_id_index = i then
      tx.message.static_account_keys[i]?
    else none

/-- `address_table_lookups` (parser.rs): the v0 lookups as output records;
empty for legacy messages. -/
def SolanaTransaction.address_table_lookups (tx : SolanaTransaction) :
    List SolanaAddressTableLookup :=
  match tx.message with
  | .legacy _ => []
  | .v0 m =>
    m.address_table_lookups.map fun a =>
      { address_table_key := a.account_key,
        writable_indexes := a.writable_indexes,
        readonly_indexes := a.readonly_indexes }

/-- The blockhash of either message form (`recent_blockhash` of parser.rs;
base58 rendering kept as the raw bytes). -/
def VersionedMessage.recent_blockhash : VersionedMessage → List Nat
  | .legacy m => m.recent_blockhash
  | .v0 m => m.recent_blockhash

/-- `transaction_metadata` (parser.rs). -/
def SolanaTransaction.transaction_metadata (tx : SolanaTransaction) :
    PResult SolanaMetadata :=
  match tx.all_instructions_and_transfers with
  | .err e => .err e
  | .panic => .panic
  | .ok (instructions, transfers, spl_transfers) =>
    .ok { signatures := tx.signatures.map hex_encode,
          account_keys := tx.message.static_account_keys,
          address_table_lookups := tx.address_table_lookups,
          recent_blockhash := tx.message.recent_blockhash,
          program_keys := tx.all_invoked_programs,
          instructions := instructions,
          transfers := transfers,
          spl_transfers := spl_transfers }

/-- `SolanaParsedTransactionPayload` (structs.rs). -/
structure SolanaParsedTransactionPayload where
  transaction_metadata : Option SolanaMetadata
  unsigned_payload : String
  deriving Repr, DecidableEq

/-- `SolanaParsedTransaction` (structs.rs). -/
structure SolanaParsedTransaction where
  payload : Option SolanaParsedTransactionPayload
  deriving Repr, DecidableEq

/-- `SolanaParseResponse` (structs.rs). -/
structure SolanaParseResponse where
  solana_parsed_transaction : SolanaParsedTransaction
  deriving Repr, DecidableEq

/-- `parse_transaction` (parser.rs): the public entry point. -/
def parse_transaction (unsigned_tx : String) (full_transaction : Bool) :
    PResult SolanaParseResponse :=
  if unsigned_tx = "" then .err .emptyTransaction
  else
    match parse_solana_transaction unsigned_tx full_transaction with
    | .panic => .panic
    | .err e => .err (.unableToParse e)
    | .ok tx =>
      match tx.transaction_metadata with
      | .panic => .panic
      | .err e => .err e
      | .ok md =>
        .ok { solana_parsed_transaction :=
                { payload := some { transaction_metadata := some md,
                                    unsigned_payload := unsigned_tx } } }

/-! ## IDL schema model and loader (`idl_parser.rs`, `structs.rs`)

The IDL subsystem is embedded from the source with these renderings:

* `serde_json::Value` becomes the `Json` inductive (numbers as `Int`; the
  two extra `fnum` constructors carry IEEE-754 bit patterns produced by the
  argument decoder — input IDL JSON never contains them);
* JSON objects and `serde_json::Map` become association lists in field
  order; `HashMap<String, _>` caches become association lists with
  `List.lookup`;
* `serde_json::from_value::<T>` for the IDL schema types is modelled by the
  `parse_idl_*` functions below, following the serde attributes declared in
  structs.rs (camelCase variant names, legacy/modern key aliases, optional
  fields defaulting);
* recursion over JSON values and over decoded type trees is fuelled; fuel
  exhaustion is a distinguished error that a sufficiently large fuel (any
  bound on the nesting depth, e.g. `sizeOf` of the input) never reaches. -/

/-- Errors of the IDL loader and argument decoder (`idl_parser.rs`), one
constructor per distinct error string. -/
inductive IdlErr where
  /-- "Unable to parse IDL: Invalid JSON with error: {e}" -/
  | jsonInvalid : IdlErr
  /-- "Key '{key}' not found in uploaded IDL" -/
  | keyNotFound (key : String) : IdlErr
  /-- "Value for Key '{key}' must be a JSON array" -/
  | valueNotArray (key : String) : IdlErr
  /-- "Failed to parse instructions array in uploaded IDL with error: {e}" -/
  | instructionsParse : IdlErr
  /-- "Failed to parse types array in uploaded IDL with error: {e}" -/
  | typesParse : IdlErr
  /-- "Attempted to compute the default anchor instruction discriminator for an instruction with no name" -/
  | emptyInstructionName : IdlErr
  /-- "Multiple types with the same name detected: {name}" -/
  | duplicateTypeName (name : String) : IdlErr
  /-- "Defined types cycle check failed on name: {name}" -/
  | typeCycle (name : String) : IdlErr
  /-- "Type {name} not found in IDL" -/
  | typeNotFound (name : String) : IdlErr
  /-- "No discriminator found for instruction {name} not found in IDL" -/
  | noDiscriminator (name : String) : IdlErr
  /-- "No instruction discriminator found for instruction data: {data}" -/
  | discriminatorNotFound : IdlErr
  /-- "Error while parsing data into instruction with name: {name}. Discriminator longer than data bytes" -/
  | discriminatorLongerThanData (name : String) : IdlErr
  /-- "Failed to parse idl argument with error: {e}" -/
  | argParse (e : IdlErr) : IdlErr
  /-- "Extra unexpected bytes remainging at the end of instruction call data" -/
  | extraneousBytesAfterArguments : IdlErr
  /-- `std::io` UnexpectedEof surfaced by a truncated reader access -/
  | ioEof : IdlErr
  /-- `String::from_utf8` failure on a decoded string field -/
  | invalidUtf8 : IdlErr
  /-- "Invalid variant index" -/
  | invalidVariantIndex : IdlErr
  /-- "Too few accounts provided in transaction payload for instruction {name}" -/
  | tooFewAccounts (name : String) : IdlErr
  /-- Fuel exhaustion of the fuelled recursions (unreachable for fuel larger
  than the nesting depth of the input; kept distinct for honesty). -/
  | outOfFuel : IdlErr
  deriving Repr, DecidableEq

/-- `serde_json::Value`.  `fnum32`/`fnum64` carry raw IEEE-754 bit patterns
for decoded `f32`/`f64` argument values. -/
inductive Json where
  | null : Json
  | bool (b : Bool) : Json
  | num (n : Int) : Json
  | str (s : String) : Json
  | arr (elems : List Json) : Json
  | obj (fields : List (String × Json)) : Json
  | fnum32 (bits : Nat) : Json
  | fnum64 (bits : Nat) : Json
  deriving Repr, BEq, Inhabited

/-- `Defined` (structs.rs): a defined-type reference, either a bare name or
an object `{name: ...}` (serde untagged). -/
inductive Defined where
  | Str (s : String) : Defined
  | Obj (name : String) : Defined
  deriving Repr, DecidableEq

/-- `Defined::to_string` / the name match in `parse_type` (idl_parser.rs):
both variants give the referenced type name. -/
def Defined.to_string : Defined → String
  | .Str s => s
  | .Obj name => name

/-- `IdlType` (structs.rs). -/
inductive IdlType where
  | Array (t : IdlType) (n : Nat) : IdlType
  | Bool : IdlType
  | Bytes : IdlType
  | Defined (d : Defined) : IdlType
  | F32 : IdlType
  | F64 : IdlType
  | I128 : IdlType
  | I16 : IdlType
  | I32 : IdlType
  | I64 : IdlType
  | I8 : IdlType
  | Option (t : IdlType) : IdlType
  | COption (t : IdlType) : IdlType
  | Tuple (ts : List IdlType) : IdlType
  | PublicKey : IdlType
  | String : IdlType
  | U128 : IdlType
  | U16 : IdlType
  | U32 : IdlType
  | U64 : IdlType
  | U8 : IdlType
  | Vec (t : IdlType) : IdlType
  | HashMap (k v : IdlType) : IdlType
  | BTreeMap (k v : IdlType) : IdlType
  | HashSet (t : IdlType) : IdlType
  | BTreeSet (t : IdlType) : IdlType
  deriving Repr, BEq, Inhabited

/-- `IdlField` (structs.rs): a named field with a type (serde key "type"). -/
structure IdlField where
  name : String
  ty : IdlType
  deriving Repr, BEq, Inhabited

/-- `EnumFields` (structs.rs), serde untagged: named fields or a tuple. -/
inductive EnumFields where
  | Named (fields : List IdlField) : EnumFields
  | Tuple (types : List IdlType) : EnumFields
  deriving Repr, BEq, Inhabited

/-- `EnumFields::types()`: the field types of a variant, in order. -/
def EnumFields.types : EnumFields → List IdlType
  | .Named fields => fields.map IdlField.ty
  | .Tuple ts => ts

/-- `IdlEnumVariant` (structs.rs). -/
structure IdlEnumVariant where
  name : String
  fields : Option EnumFields
  deriving Repr, BEq, Inhabited

/-- `IdlTypeDefinitionTy` (structs.rs), serde tag "kind" in lowercase. -/
inductive IdlTypeDefinitionTy where
  | Struct (fields : List IdlField) : IdlTypeDefinitionTy
  | Enum (variants : List IdlEnumVariant) : IdlTypeDefinitionTy
  | Alias (value : IdlType) : IdlTypeDefinitionTy
  deriving Repr, BEq, Inhabited

/-- `IdlTypeDefinition` (structs.rs); the serde key of `ty` is "type". -/
structure IdlTypeDefinition where
  name : String
  ty : IdlTypeDefinitionTy
  deriving Repr, BEq, Inhabited

/-- `IdlAccount` (structs.rs): camelCase keys with legacy/modern aliases,
missing flags defaulting to false. -/
structure IdlAccount where
  name : String
  is_mut : Bool
  is_signer : Bool
  is_optional : Bool
  deriving Repr, BEq, Inhabited

/-- `IdlInstruction` (structs.rs). -/
structure IdlInstruction where
  name : String
  discriminator : Option (List Nat)
  accounts : List IdlAccount
  args : List IdlField
  deriving Repr, BEq, Inhabited

/-- `Idl` (structs.rs). -/
structure Idl where
  program_id : String
  name : String
  instructions : List IdlInstruction
  types : List IdlTypeDefinition
  deriving Repr, BEq, Inhabited

/-! ### serde deserialization of the schema types (`from_value`) -/

/-- Look up a JSON object key (first occurrence, as serde does). -/
def Json.get? (fields : List (String × Json)) (key : String) : Option Json :=
  List.lookup key fields

/-- A serde `bool` field with a modern and a legacy alias, defaulting to
false when both keys are absent. -/
def parse_bool_flag (fields : List (String × Json)) (primary alt : String) : Option Bool :=
  match Json.get? fields primary with
  | some (.bool b) => some b
  | some _ => none
  | none =>
    match Json.get? fields alt with
    | some (.bool b) => some b
    | some _ => none
    | none => some false

/-- A `u8` as serde reads it: an integer in `0..=255`. -/
def parse_u8_json : Json → Option Nat
  | .num n => if 0 ≤ n ∧ n ≤ 255 then some n.toNat else none
  | _ => none

def parse_u8_list : List Json → Option (List Nat)
  | [] => some []
  | j :: js =>
    match parse_u8_json j, parse_u8_list js with
    | some b, some bs => some (b :: bs)
    | _, _ => none

mutual

/-- `serde_json::from_value::<IdlType>` (externally tagged enum, camelCase
variant names, `pubkey` alias for `publicKey`, `coption` rename).  Fuelled;
any fuel above the JSON nesting depth behaves identically. -/
def parse_idl_type : Nat → Json → Option IdlType
  | 0, _ => none
  | _ + 1, .str s =>
    if s = "bool" then some .Bool
    else if s = "bytes" then some .Bytes
    else if s = "f32" then some .F32
    else if s = "f64" then some .F64
    else if s = "i128" then some .I128
    else if s = "i16" then some .I16
    else if s = "i32" then some .I32
    else if s = "i64" then some .I64
    else if s = "i8" then some .I8
    else if s = "publicKey" ∨ s = "pubkey" then some .PublicKey
    else if s = "string" then some .String
    else if s = "u128" then some .U128
    else if s = "u16" then some .U16
    else if s = "u32" then some .U32
    else if s = "u64" then some .U64
    else if s = "u8" then some .U8
    else none
  | fuel + 1, .obj [(k, v)] =>
    if k = "vec" then (parse_idl_type fuel v).map .Vec
    else if k = "option" then (parse_idl_type fuel v).map .Option
    else if k = "coption" then (parse_idl_type fuel v).map .COption
    else if k = "defined" then
      match v with
      | .str s => some (.Defined (.Str s))
      | .obj fs =>
        match Json.get? fs "name" with
        | some (.str s) => some (.Defined (.Obj s))
        | _ => none
      | _ => none
    else if k = "array" then
      match v with
      | .arr [tj, .num n] =>
        if 0 ≤ n then (parse_idl_type fuel tj).map (.Array · n.toNat) else none
      | _ => none
    else if k = "tuple" then
      match v with
      | .arr ts => (parse_idl_type_list fuel ts).map .Tuple
      | _ => none
    else if k = "hashMap" then
      match v with
      | .arr [kj, vj] =>
        match parse_idl_type fuel kj, parse_idl_type fuel vj with
        | some kt, some vt => some (.HashMap kt vt)
        | _, _ => none
      | _ => none
    else if k = "bTreeMap" then
      match v with
      | .arr [kj, vj] =>
        match parse_idl_type fuel kj, parse_idl_type fuel vj with
        | some kt, some vt => some (.BTreeMap kt vt)
        | _, _ => none
      | _ => none
    else if k = "hashSet" then (parse_idl_type fuel v).map .HashSet
    else if k = "bTreeSet" then (parse_idl_type fuel v).map .BTreeSet
    else none
  | _ + 1, _ => none

def parse_idl_type_list : Nat → List Json → Option (List IdlType)
  | 0, _ => none
  | _ + 1, [] => some []
  | fuel + 1, j :: js =>
    match parse_idl_type fuel j, parse_idl_type_list fuel js with
    | some t, some ts => some (t :: ts)
    | _, _ => none

end

/-- `serde_json::from_value::<IdlField>`: object with "name" and "type". -/
def parse_idl_field (fuel : Nat) : Json → Option IdlField
  | .obj fs =>
    match Json.get? fs "name", Json.get? fs "type" with
    | some (.str name), some tj => (parse_idl_type fuel tj).map ({ name, ty := · })
    | _, _ => none
  | _ => none

def parse_idl_field_list (fuel : Nat) : List Json → Option (List IdlField)
  | [] => some []
  | j :: js =>
    match parse_idl_field fuel j, parse_idl_field_list fuel js with
    | some f, some fs => some (f :: fs)
    | _, _ => none

/-- `serde_json::from_value::<EnumFields>` (untagged): try named fields
first, then a tuple of types, as serde tries variants in order. -/
def parse_enum_fields (fuel : Nat) : Json → Option EnumFields
  | .arr elems =>
    match parse_idl_field_list fuel elems with
    | some fs => some (.Named fs)
    | none => (parse_idl_type_list fuel elems).map .Tuple
  | _ => none

/-- `serde_json::from_value::<IdlEnumVariant>`. -/
def parse_idl_enum_variant (fuel : Nat) : Json → Option IdlEnumVariant
  | .obj fs =>
    match Json.get? fs "name" with
    | some (.str name) =>
      match Json.get? fs "fields" with
      | none => some { name, fields := none }
      | some fj => (parse_enum_fields fuel fj).map ({ name, fields := some · })
    | _ => none
  | _ => none

def parse_idl_enum_variant_list (fuel : Nat) : List Json → Option (List IdlEnumVariant)
  | [] => some []
  | j :: js =>
    match parse_idl_enum_variant fuel j, parse_idl_enum_variant_list fuel js with
    | some v, some vs => some (v :: vs)
    | _, _ => none

/-- `serde_json::from_value::<IdlTypeDefinitionTy>` ("kind"-tagged,
lowercase). -/
def parse_idl_type_definition_ty (fuel : Nat) : Json → Option IdlTypeDefinitionTy
  | .obj fs =>
    match Json.get? fs "kind" with
    | some (.str "struct") =>
      match Json.get? fs "fields" with
      | some (.arr fjs) => (parse_idl_field_list fuel fjs).map .Struct
      | _ => none
    | some (.str "enum") =>
      match Json.get? fs "variants" with
      | some (.arr vjs) => (parse_idl_enum_variant_list fuel vjs).map .Enum
      | _ => none
    | some (.str "alias") =>
      match Json.get? fs "value" with
      | some vj => (parse_idl_type fuel vj).map .Alias
      | _ => none
    | _ => none
  | _ => none

/-- `serde_json::from_value::<IdlTypeDefinition>`. -/
def parse_idl_type_definition (fuel : Nat) : Json → Option IdlTypeDefinition
  | .obj fs =>
    match Json.get? fs "name", Json.get? fs "type" with
    | some (.str name), some tj =>
      (parse_idl_type_definition_ty fuel tj).map ({ name, ty := · })
    | _, _ => none
  | _ => none

/-- `serde_json::from_value::<IdlAccount>` with the legacy/modern key
aliases of structs.rs. -/
def parse_idl_account : Json → Option IdlAccount
  | .obj fs =>
    match Json.get? fs "name" with
    | some (.str name) =>
      match parse_bool_flag fs "isMut" "writable",
            parse_bool_flag fs "isSigner" "signer",
            parse_bool_flag fs "isOptional" "optional" with
      | some m, some s, some o =>
        some { name, is_mut := m, is_signer := s, is_optional := o }
      | _, _, _ => none
    | _ => none
  | _ => none

def parse_idl_account_list : List Json → Option (List IdlAccount)
  | [] => some []
  | j :: js =>
    match parse_idl_account j, parse_idl_account_list js with
    | some a, some as_ => some (a :: as_)
    | _, _ => none

/-- `serde_json::from_value::<IdlInstruction>`: "name", optional
"discriminator" byte array, "accounts", "args". -/
def parse_idl_instruction (fuel : Nat) : Json → Option IdlInstruction
  | .obj fs =>
    match Json.get? fs "name" with
    | some (.str name) =>
      match
        (match Json.get? fs "discriminator" with
         | none => some none
         | some (.arr djs) => (parse_u8_list djs).map some
         | some _ => none),
        (match Json.get? fs "accounts" with
         | some (.arr ajs) => parse_idl_account_list ajs
         | _ => none),
        (match Json.get? fs "args" with
         | some (.arr gjs) => parse_idl_field_list fuel gjs
         | _ => none) with
      | some disc, some accounts, some args =>
        some { name, discriminator := disc, accounts, args }
      | _, _, _ => none
    | _ => none
  | _ => none

/-! ### IDL loading (`decode_idl_data`, idl_parser.rs) -/

/-- Modelled from the spec: stands for the default anchor discriminator
`sha256("global:" + snake_case(name))[0..8]` computed by the external
`sha2` and `heck` crates (idl_parser.rs line 84).  The hash bytes
themselves are irrelevant to every claim settled here, so they are
represented by a total placeholder derived from the name. -/
def anchor_discriminator_hash (name : String) : List Nat :=
  ((name.data.map fun c => Char.toNat c % 256) ++ List.replicate 8 0).take 8

/-- `compute_default_anchor_discriminator` (idl_parser.rs): reject empty
names, otherwise the 8-byte default discriminator. -/
def compute_default_anchor_discriminator (instruction_name : String) :
    Except IdlErr (List Nat) :=
  if instruction_name = "" then .error .emptyInstructionName
  else .ok (anchor_discriminator_hash instruction_name)

mutual

/-- A computable structural size of a JSON value, used to pick a fuel that
exceeds any nesting depth. -/
def json_size : Json → Nat
  | .arr es => 1 + json_size_list es
  | .obj fs => 1 + json_size_fields fs
  | _ => 1

def json_size_list : List Json → Nat
  | [] => 1
  | j :: js => 1 + json_size j + json_size_list js

def json_size_fields : List (String × Json) → Nat
  | [] => 1
  | (_, j) :: fs => 1 + json_size j + json_size_fields fs

end

/-- `validate_idl_array` (idl_parser.rs): the key must exist and hold an
array. -/
def validate_idl_array (idl_map : List (String × Json)) (key : String) :
    Except IdlErr (List Json) :=
  match Json.get? idl_map key with
  | none => .error (.keyNotFound key)
  | some v =>
    match v with
    | .arr l => .ok l
    | _ => .error (.valueNotArray key)

def parse_instructions_json (fuel : Nat) : List Json → Except IdlErr (List IdlInstruction)
  | [] => .ok []
  | j :: js =>
    match parse_idl_instruction fuel j with
    | none => .error .instructionsParse
    | some i =>
      match parse_instructions_json fuel js with
      | .error e => .error e
      | .ok is_ => .ok (i :: is_)

def parse_types_json (fuel : Nat) : List Json → Except IdlErr (List IdlTypeDefinition)
  | [] => .ok []
  | j :: js =>
    match parse_idl_type_definition fuel j with
    | none => .error .typesParse
    | some t =>
      match parse_types_json fuel js with
      | .error e => .error e
      | .ok ts => .ok (t :: ts)

/-- The discriminator-defaulting pass of `decode_idl_data`. -/
def fill_discriminators : List IdlInstruction → Except IdlErr (List IdlInstruction)
  | [] => .ok []
  | i :: is_ =>
    match
      (match i.discriminator with
       | some d => Except.ok (some d)
       | none =>
         match compute_default_anchor_discriminator i.name with
         | .error e => .error e
         | .ok d => .ok (some d)) with
    | .error e => .error e
    | .ok d =>
      match fill_discriminators is_ with
      | .error e => .error e
      | .ok rest => .ok ({ i with discriminator := d } :: rest)

/-- The name → definition cache built by `TypeResolver::new`
(idl_parser.rs), with the duplicate-name check. -/
def build_type_cache : List IdlTypeDefinition → List (String × IdlTypeDefinition) →
    Except IdlErr (List (String × IdlTypeDefinition))
  | [], acc => .ok acc
  | t :: ts, acc =>
    if (List.lookup t.name acc).isSome then .error (.duplicateTypeName t.name)
    else build_type_cache ts (acc ++ [(t.name, t)])

/-- The defined-type names referenced directly by a definition body, in
source order: struct fields, enum variant fields, or the alias target.
Only types that are themselves `Defined` count — `cycle_recursive_check`
does not look inside `Option`/`Vec`/`Array` or any other container. -/
def IdlTypeDefinitionTy.defined_refs : IdlTypeDefinitionTy → List String
  | .Struct fields =>
    fields.filterMap fun f =>
      match f.ty with
      | .Defined d => some d.to_string
      | _ => none
  | .Enum variants =>
    variants.flatMap fun v =>
      match v.fields with
      | some fs =>
        fs.types.filterMap fun t =>
          match t with
          | .Defined d => some d.to_string
          | _ => none
      | none => []
  | .Alias value =>
    match value with
    | .Defined d => [d.to_string]
    | _ => []

mutual

/-- `cycle_recursive_check` (idl_parser.rs): DFS from `type_name` through
directly-`Defined` references, failing when a name already on the current
path recurs.  Fuelled; the path grows by one distinct cached name per
level, so any fuel above the number of cached types is never exhausted. -/
def cycle_recursive_check (fuel : Nat) (type_cache : List (String × IdlTypeDefinition))
    (type_name : String) (path : List String) : Except IdlErr Unit :=
  match fuel with
  | 0 => .error .outOfFuel
  | fuel + 1 =>
    if type_name ∈ path then .error (.typeCycle type_name)
    else
      match List.lookup type_name type_cache with
      | none => .error (.typeNotFound type_name)
      | some ty_def =>
        cycle_check_names fuel type_cache ty_def.ty.defined_refs (type_name :: path)

def cycle_check_names (fuel : Nat) (type_cache : List (String × IdlTypeDefinition)) :
    List String → List String → Except IdlErr Unit
  | [], _ => .ok ()
  | n :: ns, path =>
    match cycle_recursive_check fuel type_cache n path with
    | .error e => .error e
    | .ok _ => cycle_check_names fuel type_cache ns path

end

/-- `check_idl_for_cycles` (idl_parser.rs): DFS from every defined type,
each with a fresh empty path. -/
def check_idl_for_cycles (fuel : Nat) (types : List IdlTypeDefinition)
    (type_cache : List (String × IdlTypeDefinition)) : Except IdlErr Unit :=
  match types with
  | [] => .ok ()
  | t :: ts =>
    match cycle_recursive_check fuel type_cache t.name [] with
    | .error e => .error e
    | .ok _ => check_idl_for_cycles fuel ts type_cache

/-- `TypeResolver::new` (idl_parser.rs): build the cache (rejecting
duplicate names) and run the cycle check.  The fuel `types.length + 1`
bounds the DFS depth, which cannot exceed the number of distinct cached
names plus one. -/
def type_resolver_new (idl : Idl) : Except IdlErr (List (String × IdlTypeDefinition)) :=
  match build_type_cache idl.types [] with
  | .error e => .error e
  | .ok cache =>
    match check_idl_for_cycles (idl.types.length + 1) idl.types cache with
    | .error e => .error e
    | .ok _ => .ok cache

/-- `decode_idl_data` (idl_parser.rs), starting from the parsed top-level
JSON object (`serde_json::from_str` itself is elided: a non-object or
unparsable input fails before this point).  Parses the `instructions`
array, fills default discriminators, parses the `types` array, and runs the
cycle check through `TypeResolver::new`. -/
def decode_idl_data (idl_map : List (String × Json)) (program_id program_name : String) :
    Except IdlErr Idl :=
  match validate_idl_array idl_map "instructions" with
  | .error e => .error e
  | .ok instructions =>
    match parse_instructions_json (json_size_list instructions) instructions with
    | .error e => .error e
    | .ok parsed0 =>
      match fill_discriminators parsed0 with
      | .error e => .error e
      | .ok parsed_instructions =>
        match validate_idl_array idl_map "types" with
        | .error e => .error e
        | .ok types =>
          match parse_types_json (json_size_list types) types with
          | .error e => .error e
          | .ok parsed_types =>
            let parsed_idl : Idl :=
              { program_id, name := program_name,
                instructions := parsed_instructions, types := parsed_types }
            match type_resolver_new parsed_idl with
            | .error e => .error e
            | .ok _ => .ok parsed_idl

/-! ### IDL argument decoder (`parse_data_into_args` / `parse_type`)

The `Cursor` over the instruction bytes is modelled as the byte list plus an
explicit position; every reader returns the value and the advanced
position.  Reading past the end is the `io` UnexpectedEof error. -/

/-- Read `n` raw bytes at `pos`. -/
def read_bytes_at (data : List Nat) (pos n : Nat) : Option (List Nat × Nat) :=
  if pos + n ≤ data.length then some ((data.drop pos).take n, pos + n) else none

/-- Read an `n`-byte little-endian unsigned value at `pos`. -/
def read_le_at (data : List Nat) (pos n : Nat) : Option (Nat × Nat) :=
  if pos + n ≤ data.length then
    some (((data.drop pos).take n).reverse.foldl (fun acc b => acc * 256 + b) 0, pos + n)
  else none

/-- Two's-complement reading of an unsigned `bits`-wide value. -/
def to_signed (v : Nat) (bits : Nat) : Int :=
  if v < 2 ^ (bits - 1) then (v : Int) else (v : Int) - 2 ^ bits

/-- The base58 alphabet (`bs58`). -/
def base58_char (n : Nat) : Char :=
  "123456789ABCDEFGHJKLMNPQRSTUVWXYZabcdefghijkmnopqrstuvwxyz".data.getD n '1'

/-- Base58 digits of `n`, most significant first, prepended to `acc`. -/
def nat_to_base58 (n : Nat) (acc : List Char) : List Char :=
  if h : n = 0 then acc
  else nat_to_base58 (n / 58) (base58_char (n % 58) :: acc)
  termination_by n
  decreasing_by exact Nat.div_lt_self (Nat.pos_of_ne_zero h) (by norm_num)

/-- `bs58::encode` of a byte array: one `1` per leading zero byte, then the
base58 digits of the big-endian value. -/
def bs58_encode (bytes : List Nat) : String :=
  ⟨List.replicate (bytes.takeWhile (· = 0)).length '1' ++
    nat_to_base58 (bytes.foldl (fun acc b => acc * 256 + b) 0) []⟩

/-- UTF-8 decoding (RFC 3629), as performed by `String::from_utf8`; `none`
on any malformed sequence. -/
def utf8_decode_chars : List Nat → Option (List Char)
  | [] => some []
  | b :: rest =>
    if b ≤ 0x7f then (utf8_decode_chars rest).map (Char.ofNat b :: ·)
    else if 0xc2 ≤ b ∧ b ≤ 0xdf then
      match rest with
      | c1 :: rest2 =>
        if 0x80 ≤ c1 ∧ c1 ≤ 0xbf then
          (utf8_decode_chars rest2).map
            (Char.ofNat ((b - 0xc0) * 64 + (c1 - 0x80)) :: ·)
        else none
      | [] => none
    else if 0xe0 ≤ b ∧ b ≤ 0xef then
      match rest with
      | c1 :: c2 :: rest3 =>
        if (if b = 0xe0 then 0xa0 ≤ c1 ∧ c1 ≤ 0xbf
            else if b = 0xed then 0x80 ≤ c1 ∧ c1 ≤ 0x9f
            else 0x80 ≤ c1 ∧ c1 ≤ 0xbf) ∧ 0x80 ≤ c2 ∧ c2 ≤ 0xbf then
          (utf8_decode_chars rest3).map
            (Char.ofNat ((b - 0xe0) * 4096 + (c1 - 0x80) * 64 + (c2 - 0x80)) :: ·)
        else none
      | _ => none
    else if 0xf0 ≤ b ∧ b ≤ 0xf4 then
      match rest with
      | c1 :: c2 :: c3 :: rest4 =>
        if (if b = 0xf0 then 0x90 ≤ c1 ∧ c1 ≤ 0xbf
            else if b = 0xf4 then 0x80 ≤ c1 ∧ c1 ≤ 0x8f
            else 0x80 ≤ c1 ∧ c1 ≤ 0xbf) ∧
           (0x80 ≤ c2 ∧ c2 ≤ 0xbf) ∧ (0x80 ≤ c3 ∧ c3 ≤ 0xbf) then
          (utf8_decode_chars rest4).map
            (Char.ofNat ((b - 0xf0) * 262144 + (c1 - 0x80) * 4096 +
              (c2 - 0x80) * 64 + (c3 - 0x80)) :: ·)
        else none
      | _ => none
    else none

mutual

/-- `parse_type` (idl_parser.rs): Borsh-decode one value of type `ty` at
`pos`.  Fuelled: every recursive call decrements; any fuel above the number
of nested values decoded behaves identically, and exhaustion is the
distinguished `outOfFuel` error. -/
def parse_type_fuelled : Nat → List Nat → Nat → IdlType →
    List (String × IdlTypeDefinition) → Except IdlErr (Json × Nat)
  | 0, _, _, _, _ => .error .outOfFuel
  | fuel + 1, data, pos, ty, cache =>
    match ty with
    | .Bool =>
      match read_bytes_at data pos 1 with
      | none => .error .ioEof
      | some (bs, pos') => .ok (.bool (decide (bs.getD 0 0 ≠ 0)), pos')
    | .I8 =>
      match read_le_at data pos 1 with
      | none => .error .ioEof
      | some (v, pos') => .ok (.num (to_signed v 8), pos')
    | .I16 =>
      match read_le_at data pos 2 with
      | none => .error .ioEof
      | some (v, pos') => .ok (.num (to_signed v 16), pos')
    | .I32 =>
      match read_le_at data pos 4 with
      | none => .error .ioEof
      | some (v, pos') => .ok (.num (to_signed v 32), pos')
    | .I64 =>
      match read_le_at data pos 8 with
      | none => .error .ioEof
      | some (v, pos') => .ok (.num (to_signed v 64), pos')
    | .I128 =>
      match read_le_at data pos 16 with
      | none => .error .ioEof
      | some (v, pos') => .ok (.str (toString (to_signed v 128)), pos')
    | .U8 =>
      match read_le_at data pos 1 with
      | none => .error .ioEof
      | some (v, pos') => .ok (.num v, pos')
    | .U16 =>
      match read_le_at data pos 2 with
      | none => .error .ioEof
      | some (v, pos') => .ok (.num v, pos')
    | .U32 =>
      match read_le_at data pos 4 with
      | none => .error .ioEof
      | some (v, pos') => .ok (.num v, pos')
    | .U64 =>
      match read_le_at data pos 8 with
      | none => .error .ioEof
      | some (v, pos') => .ok (.num v, pos')
    | .U128 =>
      match read_le_at data pos 16 with
      | none => .error .ioEof
      | some (v, pos') => .ok (.str (Nat.repr v), pos')
    | .F32 =>
      match read_le_at data pos 4 with
      | none => .error .ioEof
      | some (v, pos') => .ok (.fnum32 v, pos')
    | .F64 =>
      match read_le_at data pos 8 with
      | none => .error .ioEof
      | some (v, pos') => .ok (.fnum64 v, pos')
    | .PublicKey =>
      match read_bytes_at data pos 32 with
      | none => .error .ioEof
      | some (bs, pos') => .ok (.str (bs58_encode bs), pos')
    | .String =>
      match read_le_at data pos 4 with
      | none => .error .ioEof
      | some (len, pos') =>
        match read_bytes_at data pos' len with
        | none => .error .ioEof
        | some (bs, pos'') =>
          match utf8_decode_chars bs with
          | none => .error .invalidUtf8
          | some cs => .ok (.str ⟨cs⟩, pos'')
    | .Bytes =>
      match read_le_at data pos 4 with
      | none => .error .ioEof
      | some (len, pos') =>
        match read_bytes_at data pos' len with
        | none => .error .ioEof
        | some (bs, pos'') => .ok (.str (hex_encode bs), pos'')
    | .Array t n =>
      match parse_type_count fuel data pos t cache n with
      | .error e => .error e
      | .ok (vs, pos') => .ok (.arr vs, pos')
    | .Vec t =>
      match read_le_at data pos 4 with
      | none => .error .ioEof
      | some (len, pos') =>
        match parse_type_count fuel data pos' t cache len with
        | .error e => .error e
        | .ok (vs, pos'') => .ok (.arr vs, pos'')
    | .Option t =>
      match read_bytes_at data pos 1 with
      | none => .error .ioEof
      | some (bs, pos') =>
        if bs.getD 0 0 = 0 then .ok (.null, pos')
        else parse_type_fuelled fuel data pos' t cache
    | .COption t =>
      match read_le_at data pos 4 with
      | none => .error .ioEof
      | some (flag, pos') =>
        if flag = 0 then .ok (.null, pos')
        else parse_type_fuelled fuel data pos' t cache
    | .Tuple ts =>
      match parse_type_seq fuel data pos ts cache with
      | .error e => .error e
      | .ok (vs, pos') => .ok (.arr vs, pos')
    | .HashMap kt vt =>
      match read_le_at data pos 4 with
      | none => .error .ioEof
      | some (len, pos') =>
        match parse_map_entries fuel data pos' kt vt cache len with
        | .error e => .error e
        | .ok (es, pos'') => .ok (.arr es, pos'')
    | .BTreeMap kt vt =>
      match read_le_at data pos 4 with
      | none => .error .ioEof
      | some (len, pos') =>
        match parse_map_entries fuel data pos' kt vt cache len with
        | .error e => .error e
        | .ok (es, pos'') => .ok (.arr es, pos'')
    | .HashSet t =>
      match read_le_at data pos 4 with
      | none => .error .ioEof
      | some (len, pos') =>
        match parse_type_count fuel data pos' t cache len with
        | .error e => .error e
        | .ok (vs, pos'') => .ok (.arr vs, pos'')
    | .BTreeSet t =>
      match read_le_at data pos 4 with
      | none => .error .ioEof
      | some (len, pos') =>
        match parse_type_count fuel data pos' t cache len with
        | .error e => .error e
        | .ok (vs, pos'') => .ok (.arr vs, pos'')
    | .Defined d => parse_defined_type fuel data pos d.to_string cache

/-- `count` consecutive values of one type (`Array`/`Vec`/set loops). -/
def parse_type_count : Nat → List Nat → Nat → IdlType →
    List (String × IdlTypeDefinition) → Nat → Except IdlErr (List Json × Nat)
  | 0, _, _, _, _, _ => .error .outOfFuel
  | _ + 1, _, pos, _, _, 0 => .ok ([], pos)
  | fuel + 1, data, pos, ty, cache, count + 1 =>
    match parse_type_fuelled fuel data pos ty cache with
    | .error e => .error e
    | .ok (v, pos') =>
      match parse_type_count fuel data pos' ty cache count with
      | .error e => .error e
      | .ok (vs, pos'') => .ok (v :: vs, pos'')

/-- The values of a list of types in order (`Tuple`, tuple variants). -/
def parse_type_seq : Nat → List Nat → Nat → List IdlType →
    List (String × IdlTypeDefinition) → Except IdlErr (List Json × Nat)
  | 0, _, _, _, _ => .error .outOfFuel
  | _ + 1, _, pos, [], _ => .ok ([], pos)
  | fuel + 1, data, pos, t :: ts, cache =>
    match parse_type_fuelled fuel data pos t cache with
    | .error e => .error e
    | .ok (v, pos') =>
      match parse_type_seq fuel data pos' ts cache with
      | .error e => .error e
      | .ok (vs, pos'') => .ok (v :: vs, pos'')

/-- `len × (key, value)` map entries as `{"key": …, "value": …}` objects. -/
def parse_map_entries : Nat → List Nat → Nat → IdlType → IdlType →
    List (String × IdlTypeDefinition) → Nat → Except IdlErr (List Json × Nat)
  | 0, _, _, _, _, _, _ => .error .outOfFuel
  | _ + 1, _, pos, _, _, _, 0 => .ok ([], pos)
  | fuel + 1, data, pos, kt, vt, cache, count + 1 =>
    match parse_type_fuelled fuel data pos kt cache with
    | .error e => .error e
    | .ok (kv, pos') =>
      match parse_type_fuelled fuel data pos' vt cache with
      | .error e => .error e
      | .ok (vv, pos'') =>
        match parse_map_entries fuel data pos'' kt vt cache count with
        | .error e => .error e
        | .ok (es, pos3) => .ok (.obj [("key", kv), ("value", vv)] :: es, pos3)

/-- Named fields in declaration order (structs and named enum variants). -/
def parse_fields_seq : Nat → List Nat → Nat → List IdlField →
    List (String × IdlTypeDefinition) → Except IdlErr (List (String × Json) × Nat)
  | 0, _, _, _, _ => .error .outOfFuel
  | _ + 1, _, pos, [], _ => .ok ([], pos)
  | fuel + 1, data, pos, f :: fs, cache =>
    match parse_type_fuelled fuel data pos f.ty cache with
    | .error e => .error e
    | .ok (v, pos') =>
      match parse_fields_seq fuel data pos' fs cache with
      | .error e => .error e
      | .ok (vs, pos'') => .ok ((f.name, v) :: vs, pos'')

/-- `parse_defined_type` (idl_parser.rs): resolve the name and decode a
struct (field map), enum (1-byte variant index, then the variant's
fields), or alias target. -/
def parse_defined_type : Nat → List Nat → Nat → String →
    List (String × IdlTypeDefinition) → Except IdlErr (Json × Nat)
  | 0, _, _, _, _ => .error .outOfFuel
  | fuel + 1, data, pos, type_name, cache =>
    match List.lookup type_name cache with
    | none => .error (.typeNotFound type_name)
    | some ty_def =>
      match ty_def.ty with
      | .Struct fields =>
        match parse_fields_seq fuel data pos fields cache with
        | .error e => .error e
        | .ok (vs, pos') => .ok (.obj vs, pos')
      | .Enum variants =>
        match read_bytes_at data pos 1 with
        | none => .error .ioEof
        | some (bs, pos') =>
          match variants[bs.getD 0 0]? with
          | none => .error .invalidVariantIndex
          | some v =>
            match
              ((match v.fields with
                | some (.Tuple ts) =>
                  match parse_type_seq fuel data pos' ts cache with
                  | .error e => .error e
                  | .ok (vs, pos'') => .ok (Json.arr vs, pos'')
                | some (.Named fs) =>
                  match parse_fields_seq fuel data pos' fs cache with
                  | .error e => .error e
                  | .ok (vs, pos'') => .ok (Json.obj vs, pos'')
                | none => .ok (Json.null, pos')) :
                Except IdlErr (Json × Nat)) with
            | .error e => .error e
            | .ok (value, pos'') => .ok (.obj [(v.name, value)], pos'')
      | .Alias value => parse_type_fuelled fuel data pos value cache

end

/-- `find_instruction_by_discriminator` (idl_parser.rs): first instruction
whose discriminator is a byte-prefix of the data. -/
def find_instruction_by_discriminator (instruction_data : List Nat) :
    List IdlInstruction → Except IdlErr IdlInstruction
  | [] => .error .discriminatorNotFound
  | i :: is_ =>
    match i.discriminator with
    | none => .error (.noDiscriminator i.name)
    | some disc =>
      if disc.length ≤ instruction_data.length ∧ instruction_data.take disc.length = disc then
        .ok i
      else find_instruction_by_discriminator instruction_data is_

/-- The argument loop of `parse_data_into_args` (idl_parser.rs); each
argument failure is wrapped in the failed-argument error. -/
def parse_args_loop (fuel : Nat) (data : List Nat)
    (cache : List (String × IdlTypeDefinition)) :
    List IdlField → Nat → Except IdlErr (List (String × Json) × Nat)
  | [], pos => .ok ([], pos)
  | arg :: args, pos =>
    match parse_type_fuelled fuel data pos arg.ty cache with
    | .error e => .error (.argParse e)
    | .ok (v, pos') =>
      match parse_args_loop fuel data cache args pos' with
      | .error e => .error e
      | .ok (rest, pos'') => .ok ((arg.name, v) :: rest, pos'')

/-- `parse_data_into_args` (idl_parser.rs) up to but excluding the final
cursor-position check: resolver construction, discriminator validation, and
the argument loop, returning the decoded arguments and the final cursor
position. -/
def parse_data_into_args_core (fuel : Nat) (data : List Nat)
    (idl_instruction : IdlInstruction) (idl : Idl) :
    Except IdlErr (List (String × Json) × Nat) :=
  match type_resolver_new idl with
  | .error e => .error e
  | .ok cache =>
    match idl_instruction.discriminator with
    | none => .error (.noDiscriminator idl_instruction.name)
    | some disc =>
      if data.length < disc.length then
        .error (.discriminatorLongerThanData idl_instruction.name)
      else parse_args_loop fuel data cache idl_instruction.args disc.length

/-- `parse_data_into_args` (idl_parser.rs): decode all declared arguments,
then require the cursor to sit exactly at the end of the data. -/
def parse_data_into_args (fuel : Nat) (data : List Nat)
    (idl_instruction : IdlInstruction) (idl : Idl) :
    Except IdlErr (List (String × Json)) :=
  match parse_data_into_args_core fuel data idl_instruction idl with
  | .error e => .error e
  | .ok (args, pos) =>
    if pos ≠ data.length then .error .extraneousBytesAfterArguments
    else .ok args


/-- A byte whose bits 2..7 are clear is one of `0,1,2,3`; such a byte is
fixed by `&&& 0x7f` and has a clear continuation bit. -/
theorem and_fc_eq_zero_facts {b : Nat} (hb : b < 256) (h : b &&& 0xfc = 0) :
    b < 4 ∧ b &&& 0x7f = b ∧ b &&& 0x80 = 0 := by
  have h4 : b < 4 := by
    have h1 : b &&& 255 = b % 256 := by
      have := Nat.and_pow_two_sub_one_eq_mod b 8; norm_num at this; exact this
    have h3 : b &&& 3 = b % 4 := by
      have := Nat.and_pow_two_sub_one_eq_mod b 2; norm_num at this; exact this
    have h255 : (255 : Nat) = 252 ||| 3 := by decide
    have h2 : b &&& 255 = (b &&& 252) ||| (b &&& 3) := by
      rw [h255, Nat.and_or_distrib_left]
    rw [h1, h3] at h2
    rw [h, Nat.zero_or] at h2
    have hm : b % 256 = b := Nat.mod_eq_of_lt hb
    omega
  refine ⟨h4, ?_, ?_⟩ <;> interval_cases b <;> decide

theorem and_7f_lt (b : Nat) : b &&& 0x7f < 65536 :=
  lt_of_le_of_lt Nat.and_le_right (by norm_num)

theorem shift7_lt (b : Nat) : (b &&& 0x7f) <<< 7 < 65536 := by
  have h : b &&& 0x7f ≤ 0x7f := Nat.and_le_right
  calc (b &&& 0x7f) <<< 7 = (b &&& 0x7f) * 128 := by
        rw [Nat.shiftLeft_eq]
    _ ≤ 0x7f * 128 := Nat.mul_le_mul_right _ h
    _ < 65536 := by norm_num

/-- C2: `read_compact_u16` decodes a compact-u16 of 1 to 3 bytes.  Byte 1
contributes bits 0-6; if its MSB (`&&& 0x80`) is set, byte 2 contributes
bits 7-13 under the same rule; if byte 2's MSB is set, byte 3 contributes
bits 14-15 and must have its upper 6 bits clear (`&&& 0xfc = 0`), else the
call fails with the malformed-compact-u16 error; running out of bytes before
a terminating byte fails with the insufficient-bytes error.  In particular
`[0x80,0x01]` decodes to 128, `[0x80,0x80,0x03]` to 49152, and
`[0x80,0x80,0x04]` fails. -/
theorem c2_read_compact_u16_spec (b1 b2 b3 : Nat) (rest : List Nat)
    (hb3 : b3 < 256) :
    (read_compact_u16 [] = .error .compactNotEnoughBytes)
  ∧ (b1 &&& 0x80 = 0 →
        read_compact_u16 (b1 :: rest) = .ok (b1 &&& 0x7f, rest))
  ∧ (b1 &&& 0x80 ≠ 0 → read_compact_u16 [b1] = .error .compactNotEnoughBytes)
  ∧ (b1 &&& 0x80 ≠ 0 → b2 &&& 0x80 = 0 →
        read_compact_u16 (b1 :: b2 :: rest) =
          .ok ((b1 &&& 0x7f) ||| ((b2 &&& 0x7f) <<< 7), rest))
  ∧ (b1 &&& 0x80 ≠ 0 → b2 &&& 0x80 ≠ 0 →
        read_compact_u16 [b1, b2] = .error .compactNotEnoughBytes)
  ∧ (b1 &&& 0x80 ≠ 0 → b2 &&& 0x80 ≠ 0 → b3 &&& 0xfc = 0 →
        read_compact_u16 (b1 :: b2 :: b3 :: rest) =
          .ok ((b1 &&& 0x7f) ||| ((b2 &&& 0x7f) <<< 7) ||| (b3 <<< 14), rest))
  ∧ (b1 &&& 0x80 ≠ 0 → b2 &&& 0x80 ≠ 0 → b3 &&& 0xfc ≠ 0 →
        read_compact_u16 (b1 :: b2 :: b3 :: rest) = .error .compactThirdByteTooBig)
  ∧ read_compact_u16 [0x80, 0x01] = .ok (128, [])
  ∧ read_compact_u16 [0x80, 0x80, 0x03] = .ok (49152, [])
  ∧ read_compact_u16 [0x80, 0x80, 0x04] = .error .compactThirdByteTooBig := by
  refine ⟨rfl, ?_, ?_, ?_, ?_, ?_, ?_, by rfl, by rfl, by rfl⟩
  · intro h
    simp [read_compact_u16, read_compact_u16_loop, h,
      Nat.mod_eq_of_lt (and_7f_lt b1)]
  · intro h
    simp [read_compact_u16, read_compact_u16_loop, h]
  · intro h1 h2
    simp [read_compact_u16, read_compact_u16_loop, h1, h2,
      Nat.mod_eq_of_lt (and_7f_lt b1), Nat.mod_eq_of_lt (shift7_lt b2)]
  · intro h1 h2
    simp [read_compact_u16, read_compact_u16_loop, h1, h2,
      Nat.mod_eq_of_lt (and_7f_lt b1), Nat.mod_eq_of_lt (shift7_lt b2)]
  · intro h1 h2 hfc
    obtain ⟨hlt, h7f, h80⟩ := and_fc_eq_zero_facts hb3 hfc
    have hsh : b3 <<< 14 < 65536 := by
      rw [Nat.shiftLeft_eq]; norm_num; omega
    simp [read_compact_u16, read_compact_u16_loop, h1, h2, hfc, h7f, h80,
      Nat.mod_eq_of_lt (and_7f_lt b1), Nat.mod_eq_of_lt (shift7_lt b2),
      Nat.mod_eq_of_lt hsh]
  · intro h1 h2 hfc
    simp [read_compact_u16, read_compact_u16_loop, h1, h2, hfc,
      Nat.mod_eq_of_lt (and_7f_lt b1), Nat.mod_eq_of_lt (shift7_lt b2)]

theorem c2_read_compact_u16_spec_witness :
    read_compact_u16 [128, 128, 3] =
      .ok ((128 &&& 0x7f) ||| ((128 &&& 0x7f) <<< 7) ||| (3 <<< 14), []) :=
  (c2_read_compact_u16_spec 128 128 3 [] (by norm_num)).2.2.2.2.2.1
    (by decide) (by decide) (by decide)

/-- C10: the compact-u16 reader accepts non-minimal encodings.  `[0x80,0x00]`
decodes successfully to 0 with both bytes consumed (a trailing sentinel byte
is left untouched), even though 0 is also encoded as the single byte `0x00`;
hence two distinct accepted encodings decode to the same value, so decoding
is not injective on accepted inputs. -/
theorem c10_compact_u16_non_minimal :
    read_compact_u16 [0x80, 0x00] = .ok (0, [])
  ∧ read_compact_u16 [0x80, 0x00, 0xAA] = .ok (0, [0xAA])
  ∧ read_compact_u16 [0x00] = .ok (0, [])
  ∧ read_compact_u16 [0x00, 0xAA] = .ok (0, [0xAA])
  ∧ ([0x80, 0x00] : List Nat) ≠ [0x00] :=
  ⟨rfl, rfl, rfl, rfl, by simp⟩

/-! ## Appending bytes does not disturb a successful section parse

Each section parser only reads the prefix it consumes, so appending extra
bytes to a buffer it accepted yields the same value with the extra bytes
appended to the remainder.  These lemmas drive the exhaustive-consumption
claim: the trailing-byte checks of the legacy/v0 parsers then see exactly
the appended bytes. -/

theorem validate_length_ok (l : List Nat) (n : Nat) (sec : String) :
    validate_length l n sec = .ok () ↔ n ≤ l.length := by
  unfold validate_length
  by_cases h : l.length < n
  · rw [if_pos h]
    exact ⟨fun hh => absurd hh (by simp), fun hle => absurd hle (by omega)⟩
  · rw [if_neg h]
    exact ⟨fun _ => by omega, fun _ => rfl⟩

theorem validate_length_append (l s : List Nat) (n : Nat) (sec : String)
    (h : validate_length l n sec = .ok ()) :
    validate_length (l ++ s) n sec = .ok () := by
  rw [validate_length_ok] at h ⊢
  simp only [List.length_append]
  omega

theorem read_compact_u16_loop_append (s : List Nat) :
    ∀ (l : List Nat) (v sh val : Nat) (rem : List Nat),
      read_compact_u16_loop l v sh = .ok (val, rem) →
      read_compact_u16_loop (l ++ s) v sh = .ok (val, rem ++ s) := by
  intro l
  induction l with
  | nil => intro v sh val rem h; simp [read_compact_u16_loop] at h
  | cons b rest ih =>
    intro v sh val rem h
    rw [List.cons_append]
    unfold read_compact_u16_loop at h ⊢
    split at h
    · exact absurd h (by simp)
    · next hcond =>
      rw [if_neg hcond]
      split at h
      · next h80 =>
        rw [if_pos h80]
        simp only [Except.ok.injEq, Prod.mk.injEq] at h
        obtain ⟨hv, hr⟩ := h
        subst hv; subst hr
        rfl
      · next h80 =>
        rw [if_neg h80]
        exact ih _ _ _ _ h

theorem read_compact_u16_append (s l : List Nat) (val : Nat) (rem : List Nat)
    (h : read_compact_u16 l = .ok (val, rem)) :
    read_compact_u16 (l ++ s) = .ok (val, rem ++ s) :=
  read_compact_u16_loop_append s l 0 0 val rem h

theorem parse_compact_array_of_bytes_append (s l : List Nat) (sec : String)
    (out rem : List Nat)
    (h : parse_compact_array_of_bytes l sec = .ok (out, rem)) :
    parse_compact_array_of_bytes (l ++ s) sec = .ok (out, rem ++ s) := by
  unfold parse_compact_array_of_bytes at h ⊢
  cases hv : validate_length l LEN_ARRAY_HEADER_BYTES (sec ++ " Array Header") with
  | error e => simp [hv] at h
  | ok u =>
    cases u
    simp only [hv] at h
    simp only [validate_length_append _ _ _ _ hv]
    cases hrc : read_compact_u16 l with
    | error e => simp [hrc] at h
    | ok p =>
      obtain ⟨len, rest⟩ := p
      simp only [hrc] at h
      simp only [read_compact_u16_append s _ _ _ hrc]
      cases hv2 : validate_length rest (len * LEN_ARRAY_HEADER_BYTES) (sec ++ " Array") with
      | error e => simp [hv2] at h
      | ok u2 =>
        cases u2
        simp only [hv2] at h
        simp only [validate_length_append _ _ _ _ hv2]
        have hlen : len * LEN_ARRAY_HEADER_BYTES ≤ rest.length :=
          (validate_length_ok _ _ _).mp hv2
        simp only [Except.ok.injEq, Prod.mk.injEq] at h ⊢
        obtain ⟨hout, hrem⟩ := h
        subst hout; subst hrem
        exact ⟨(List.take_append_of_le_length hlen), List.drop_append_of_le_length hlen⟩

theorem parse_header_append (l s : List Nat) (hd : MessageHeader) (rem : List Nat)
    (h : parse_header l = .ok (hd, rem)) :
    parse_header (l ++ s) = .ok (hd, rem ++ s) := by
  unfold parse_header at h ⊢
  cases hv : validate_length l LEN_MESSAGE_HEADER_BYTES "Message Header" with
  | error e => simp [hv] at h
  | ok u =>
    cases u
    simp only [hv] at h
    simp only [validate_length_append _ _ _ _ hv]
    have hlen : LEN_MESSAGE_HEADER_BYTES ≤ l.length := (validate_length_ok _ _ _).mp hv
    have h3 : (3 : Nat) ≤ l.length := hlen
    simp only [Except.ok.injEq, Prod.mk.injEq] at h ⊢
    obtain ⟨hhd, hrem⟩ := h
    subst hhd; subst hrem
    refine ⟨?_, List.drop_append_of_le_length hlen⟩
    congr 1 <;> exact List.getD_append _ _ _ _ (by omega)

theorem parse_block_hash_append (l s : List Nat) (bh rem : List Nat)
    (h : parse_block_hash l = .ok (bh, rem)) :
    parse_block_hash (l ++ s) = .ok (bh, rem ++ s) := by
  unfold parse_block_hash at h ⊢
  cases hv : validate_length l LEN_SOL_ACCOUNT_KEY_BYTES "Block Hash" with
  | error e => simp [hv] at h
  | ok u =>
    cases u
    simp only [hv] at h
    simp only [validate_length_append _ _ _ _ hv]
    have hlen : LEN_SOL_ACCOUNT_KEY_BYTES ≤ l.length := (validate_length_ok _ _ _).mp hv
    simp only [Except.ok.injEq, Prod.mk.injEq] at h ⊢
    obtain ⟨hbh, hrem⟩ := h
    subst hbh; subst hrem
    exact ⟨List.take_append_of_le_length hlen, List.drop_append_of_le_length hlen⟩

theorem parse_accounts_append (l s : List Nat) (keys : List Pubkey) (rem : List Nat)
    (h : parse_accounts l = .ok (keys, rem)) :
    parse_accounts (l ++ s) = .ok (keys, rem ++ s) := by
  unfold parse_accounts at h ⊢
  cases hv : validate_length l LEN_ARRAY_HEADER_BYTES "Accounts Array Header" with
  | error e => simp [hv] at h
  | ok u =>
    cases u
    simp only [hv] at h
    simp only [validate_length_append _ _ _ _ hv]
    have h1 : LEN_ARRAY_HEADER_BYTES ≤ l.length := (validate_length_ok _ _ _).mp hv
    have hget : (l ++ s).getD 0 0 = l.getD 0 0 := List.getD_append _ _ _ _ (by
      simp only [LEN_ARRAY_HEADER_BYTES] at h1; omega)
    simp only [hget]
    cases hv2 : validate_length l
        (LEN_SOL_ACCOUNT_KEY_BYTES * l.getD 0 0 + LEN_ARRAY_HEADER_BYTES) "Accounts" with
    | error e => rw [hv2] at h; simp at h
    | ok u2 =>
      cases u2
      simp only [hv2] at h
      simp only [validate_length_append _ _ _ _ hv2]
      have hlen : LEN_SOL_ACCOUNT_KEY_BYTES * l.getD 0 0 + LEN_ARRAY_HEADER_BYTES ≤ l.length :=
        (validate_length_ok _ _ _).mp hv2
      simp only [Except.ok.injEq, Prod.mk.injEq] at h ⊢
      obtain ⟨hkeys, hrem⟩ := h
      subst hkeys; subst hrem
      constructor
      · apply List.map_congr_left
        intro i hi
        rw [List.mem_range] at hi
        have hdrop : i * LEN_SOL_ACCOUNT_KEY_BYTES + LEN_ARRAY_HEADER_BYTES ≤ l.length := by
          simp only [LEN_SOL_ACCOUNT_KEY_BYTES, LEN_ARRAY_HEADER_BYTES] at hlen ⊢
          omega
        rw [List.drop_append_of_le_length hdrop]
        apply List.take_append_of_le_length
        simp only [List.length_drop]
        simp only [LEN_SOL_ACCOUNT_KEY_BYTES, LEN_ARRAY_HEADER_BYTES] at hlen hdrop ⊢
        omega
      · exact List.drop_append_of_le_length hlen

theorem parse_single_instruction_append (l s : List Nat)
    (ins : CompiledInstruction) (rem : List Nat)
    (h : parse_single_instruction l = .ok (ins, rem)) :
    parse_single_instruction (l ++ s) = .ok (ins, rem ++ s) := by
  unfold parse_single_instruction at h ⊢
  cases hv : validate_length l LEN_ARRAY_HEADER_BYTES "Instruction Program Index" with
  | error e => simp [hv] at h
  | ok u =>
    cases u
    simp only [hv] at h
    simp only [validate_length_append _ _ _ _ hv]
    have h1 : LEN_ARRAY_HEADER_BYTES ≤ l.length := (validate_length_ok _ _ _).mp hv
    have hget : (l ++ s).getD 0 0 = l.getD 0 0 := List.getD_append _ _ _ _ (by
      simp only [LEN_ARRAY_HEADER_BYTES] at h1; omega)
    have hdrop : (l ++ s).drop LEN_ARRAY_HEADER_BYTES = l.drop LEN_ARRAY_HEADER_BYTES ++ s :=
      List.drop_append_of_le_length h1
    simp only [hget, hdrop]
    cases hc1 : parse_compact_array_of_bytes (l.drop LEN_ARRAY_HEADER_BYTES)
        "Instruction Account Indexes" with
    | error e => simp [hc1] at h
    | ok p =>
      obtain ⟨accounts, r1⟩ := p
      simp only [hc1] at h
      simp only [parse_compact_array_of_bytes_append s _ _ _ _ hc1]
      cases hc2 : parse_compact_array_of_bytes r1 "Instruction Data" with
      | error e => simp [hc2] at h
      | ok p2 =>
        obtain ⟨data, r2⟩ := p2
        simp only [hc2] at h
        simp only [parse_compact_array_of_bytes_append s _ _ _ _ hc2]
        simp only [Except.ok.injEq, Prod.mk.injEq] at h ⊢
        exact ⟨h.1, by rw [h.2]⟩

theorem parse_instructions_loop_append (s : List Nat) :
    ∀ (n : Nat) (l : List Nat) (insts : List CompiledInstruction) (rem : List Nat),
      parse_instructions_loop n l = .ok (insts, rem) →
      parse_instructions_loop n (l ++ s) = .ok (insts, rem ++ s) := by
  intro n
  induction n with
  | zero =>
    intro l insts rem h
    simp only [parse_instructions_loop, Except.ok.injEq, Prod.mk.injEq] at h ⊢
    exact ⟨h.1, by rw [h.2]⟩
  | succ n ih =>
    intro l insts rem h
    unfold parse_instructions_loop at h ⊢
    cases h1 : parse_single_instruction l with
    | error e => simp [h1] at h
    | ok p =>
      obtain ⟨inst, l1⟩ := p
      simp only [h1] at h
      simp only [parse_single_instruction_append _ s _ _ h1]
      cases h2 : parse_instructions_loop n l1 with
      | error e => simp [h2] at h
      | ok p2 =>
        obtain ⟨rest, l2⟩ := p2
        simp only [h2] at h
        simp only [ih _ _ _ h2]
        simp only [Except.ok.injEq, Prod.mk.injEq] at h ⊢
        exact ⟨h.1, by rw [h.2]⟩

theorem parse_instructions_append (l s : List Nat)
    (insts : List CompiledInstruction) (rem : List Nat)
    (h : parse_instructions l = .ok (insts, rem)) :
    parse_instructions (l ++ s) = .ok (insts, rem ++ s) := by
  unfold parse_instructions at h ⊢
  cases hv : validate_length l LEN_ARRAY_HEADER_BYTES "Instructions Array Header" with
  | error e => simp [hv] at h
  | ok u =>
    cases u
    simp only [hv] at h
    simp only [validate_length_append _ _ _ _ hv]
    have h1 : LEN_ARRAY_HEADER_BYTES ≤ l.length := (validate_length_ok _ _ _).mp hv
    have hget : (l ++ s).getD 0 0 = l.getD 0 0 := List.getD_append _ _ _ _ (by
      simp only [LEN_ARRAY_HEADER_BYTES] at h1; omega)
    have hdrop : (l ++ s).drop LEN_ARRAY_HEADER_BYTES = l.drop LEN_ARRAY_HEADER_BYTES ++ s :=
      List.drop_append_of_le_length h1
    simp only [hget, hdrop]
    exact parse_instructions_loop_append s _ _ _ _ h

theorem parse_single_address_table_lookup_append (l s : List Nat)
    (lk : MessageAddressTableLookup) (rem : List Nat)
    (h : parse_single_address_table_lookup l = .ok (lk, rem)) :
    parse_single_address_table_lookup (l ++ s) = .ok (lk, rem ++ s) := by
  unfold parse_single_address_table_lookup at h ⊢
  cases hv : validate_length l LEN_SOL_ACCOUNT_KEY_BYTES
      "Address Table Lookup Program Account Key" with
  | error e => simp [hv] at h
  | ok u =>
    cases u
    simp only [hv] at h
    simp only [validate_length_append _ _ _ _ hv]
    have h1 : LEN_SOL_ACCOUNT_KEY_BYTES ≤ l.length := (validate_length_ok _ _ _).mp hv
    simp only [List.take_append_of_le_length h1, List.drop_append_of_le_length h1]
    cases hc1 : parse_compact_array_of_bytes (l.drop LEN_SOL_ACCOUNT_KEY_BYTES)
        "Address Table Lookup Writable Indexes" with
    | error e => simp [hc1] at h
    | ok p =>
      obtain ⟨wi, r1⟩ := p
      simp only [hc1] at h
      simp only [parse_compact_array_of_bytes_append s _ _ _ _ hc1]
      cases hc2 : parse_compact_array_of_bytes r1 "Address Table Lookup Read-Only Indexes" with
      | error e => simp [hc2] at h
      | ok p2 =>
        obtain ⟨ri, r2⟩ := p2
        simp only [hc2] at h
        simp only [parse_compact_array_of_bytes_append s _ _ _ _ hc2]
        simp only [Except.ok.injEq, Prod.mk.injEq] at h ⊢
        exact ⟨h.1, by rw [h.2]⟩

theorem parse_address_table_lookups_loop_append (s : List Nat) :
    ∀ (n : Nat) (l : List Nat) (lks : List MessageAddressTableLookup) (rem : List Nat),
      parse_address_table_lookups_loop n l = .ok (lks, rem) →
      parse_address_table_lookups_loop n (l ++ s) = .ok (lks, rem ++ s) := by
  intro n
  induction n with
  | zero =>
    intro l lks rem h
    simp only [parse_address_table_lookups_loop, Except.ok.injEq, Prod.mk.injEq] at h ⊢
    exact ⟨h.1, by rw [h.2]⟩
  | succ n ih =>
    intro l lks rem h
    unfold parse_address_table_lookups_loop at h ⊢
    cases h1 : parse_single_address_table_lookup l with
    | error e => simp [h1] at h
    | ok p =>
      obtain ⟨lk, l1⟩ := p
      simp only [h1] at h
      simp only [parse_single_address_table_lookup_append _ s _ _ h1]
      cases h2 : parse_address_table_lookups_loop n l1 with
      | error e => simp [h2] at h
      | ok p2 =>
        obtain ⟨rest, l2⟩ := p2
        simp only [h2] at h
        simp only [ih _ _ _ h2]
        simp only [Except.ok.injEq, Prod.mk.injEq] at h ⊢
        exact ⟨h.1, by rw [h.2]⟩

theorem parse_address_table_lookups_append (l s : List Nat)
    (lks : List MessageAddressTableLookup) (rem : List Nat)
    (h : parse_address_table_lookups l = .ok (lks, rem)) :
    parse_address_table_lookups (l ++ s) = .ok (lks, rem ++ s) := by
  unfold parse_address_table_lookups at h ⊢
  cases hv : validate_length l LEN_ARRAY_HEADER_BYTES
      "Instructions Address Table Lookup Header" with
  | error e => simp [hv] at h
  | ok u =>
    cases u
    simp only [hv] at h
    simp only [validate_length_append _ _ _ _ hv]
    have h1 : LEN_ARRAY_HEADER_BYTES ≤ l.length := (validate_length_ok _ _ _).mp hv
    have hget : (l ++ s).getD 0 0 = l.getD 0 0 := List.getD_append _ _ _ _ (by
      simp only [LEN_ARRAY_HEADER_BYTES] at h1; omega)
    have hdrop : (l ++ s).drop LEN_ARRAY_HEADER_BYTES = l.drop LEN_ARRAY_HEADER_BYTES ++ s :=
      List.drop_append_of_le_length h1
    simp only [hget, hdrop]
    exact parse_address_table_lookups_loop_append s _ _ _ _ h

/-- A successful legacy parse leaves nothing behind, so appending nonempty
extra bytes makes the same parse fail the end-of-buffer check. -/
theorem parse_solana_legacy_transaction_append (l extra : List Nat)
    (m : VersionedMessage)
    (h : parse_solana_legacy_transaction l = .ok m) (hx : extra ≠ []) :
    parse_solana_legacy_transaction (l ++ extra) = .error .extraneousLegacy := by
  unfold parse_solana_legacy_transaction at h ⊢
  cases h1 : parse_header l with
  | error e => simp [h1] at h
  | ok p1 =>
    obtain ⟨hdr, r1⟩ := p1
    simp only [h1] at h
    simp only [parse_header_append _ extra _ _ h1]
    cases h2 : parse_accounts r1 with
    | error e => simp [h2] at h
    | ok p2 =>
      obtain ⟨keys, r2⟩ := p2
      simp only [h2] at h
      simp only [parse_accounts_append _ extra _ _ h2]
      cases h3 : parse_block_hash r2 with
      | error e => simp [h3] at h
      | ok p3 =>
        obtain ⟨bh, r3⟩ := p3
        simp only [h3] at h
        simp only [parse_block_hash_append _ extra _ _ h3]
        cases h4 : parse_instructions r3 with
        | error e => simp [h4] at h
        | ok p4 =>
          obtain ⟨insts, r4⟩ := p4
          simp only [h4] at h
          simp only [parse_instructions_append _ extra _ _ h4]
          by_cases hr : r4 = []
          · subst hr
            simp only [List.nil_append]
            rw [if_pos hx]
          · rw [if_pos hr] at h; cases h

/-- Same as `parse_solana_legacy_transaction_append` for v0 messages. -/
theorem parse_solana_v0_transaction_append (l extra : List Nat)
    (m : VersionedMessage)
    (h : parse_solana_v0_transaction l = .ok m) (hx : extra ≠ []) :
    parse_solana_v0_transaction (l ++ extra) = .error .extraneousV0 := by
  unfold parse_solana_v0_transaction at h ⊢
  cases h1 : parse_header l with
  | error e => simp [h1] at h
  | ok p1 =>
    obtain ⟨hdr, r1⟩ := p1
    simp only [h1] at h
    simp only [parse_header_append _ extra _ _ h1]
    cases h2 : parse_accounts r1 with
    | error e => simp [h2] at h
    | ok p2 =>
      obtain ⟨keys, r2⟩ := p2
      simp only [h2] at h
      simp only [parse_accounts_append _ extra _ _ h2]
      cases h3 : parse_block_hash r2 with
      | error e => simp [h3] at h
      | ok p3 =>
        obtain ⟨bh, r3⟩ := p3
        simp only [h3] at h
        simp only [parse_block_hash_append _ extra _ _ h3]
        cases h4 : parse_instructions r3 with
        | error e => simp [h4] at h
        | ok p4 =>
          obtain ⟨insts, r4⟩ := p4
          simp only [h4] at h
          simp only [parse_instructions_append _ extra _ _ h4]
          cases h5 : parse_address_table_lookups r4 with
          | error e => simp [h5] at h
          | ok p5 =>
            obtain ⟨lks, r5⟩ := p5
            simp only [h5] at h
            simp only [parse_address_table_lookups_append _ extra _ _ h5]
            by_cases hr : r5 = []
            · subst hr
              simp only [List.nil_append]
              rw [if_pos hx]
            · rw [if_pos hr] at h; cases h

/-! ## C1: the resolver walks the logical lookup array -/

theorem writable_flatMap_length (ls : List MessageAddressTableLookup) :
    (ls.flatMap fun l => l.writable_indexes.map fun b =>
      ({ address_table_key := l.account_key, index := b, writable := true } :
        SolanaSingleAddressTableLookup)).length = total_writable_indexes ls := by
  induction ls with
  | nil => simp [total_writable_indexes]
  | cons l ls ih =>
    simp only [List.flatMap_cons, List.length_append, List.length_map,
      total_writable_indexes, List.map_cons, List.sum_cons] at ih ⊢
    omega

theorem resolve_writable_loop_eq (j : Nat) :
    ∀ (ls : List MessageAddressTableLookup) (off : Nat), off ≤ j →
      resolve_writable_loop j ls off =
        (ls.flatMap fun l => l.writable_indexes.map fun b =>
          ({ address_table_key := l.account_key, index := b, writable := true } :
            SolanaSingleAddressTableLookup))[j - off]? := by
  intro ls
  induction ls with
  | nil => intro off hoff; simp [resolve_writable_loop]
  | cons l ls ih =>
    intro off hoff
    rw [List.flatMap_cons]
    unfold resolve_writable_loop
    by_cases hlt : j < off + l.writable_indexes.length
    · rw [if_pos hlt]
      have hjb : j - off < l.writable_indexes.length := by omega
      have hb : j - off <
          (l.writable_indexes.map fun b =>
            ({ address_table_key := l.account_key, index := b, writable := true } :
              SolanaSingleAddressTableLookup)).length := by
        simpa using hjb
      rw [List.getElem?_append_left hb, List.getElem?_map,
        List.getElem?_eq_getElem hjb, List.getD_eq_getElem _ _ hjb]
      rfl
    · rw [if_neg hlt]
      have hb : (l.writable_indexes.map fun b =>
          ({ address_table_key := l.account_key, index := b, writable := true } :
            SolanaSingleAddressTableLookup)).length ≤ j - off := by
        simp only [List.length_map]; omega
      rw [List.getElem?_append_right hb]
      have harith : j - off - (l.writable_indexes.map fun b =>
          ({ address_table_key := l.account_key, index := b, writable := true } :
            SolanaSingleAddressTableLookup)).length =
          j - (off + l.writable_indexes.length) := by
        simp only [List.length_map]; omega
      rw [harith]
      exact ih (off + l.writable_indexes.length) (by omega)

theorem resolve_readonly_loop_eq (j : Nat) :
    ∀ (ls : List MessageAddressTableLookup) (off : Nat), off ≤ j →
      resolve_readonly_loop j ls off =
        (ls.flatMap fun l => l.readonly_indexes.map fun b =>
          ({ address_table_key := l.account_key, index := b, writable := false } :
            SolanaSingleAddressTableLookup))[j - off]? := by
  intro ls
  induction ls with
  | nil => intro off hoff; simp [resolve_readonly_loop]
  | cons l ls ih =>
    intro off hoff
    rw [List.flatMap_cons]
    unfold resolve_readonly_loop
    by_cases hlt : j < off + l.readonly_indexes.length
    · rw [if_pos hlt]
      have hjb : j - off < l.readonly_indexes.length := by omega
      have hb : j - off <
          (l.readonly_indexes.map fun b =>
            ({ address_table_key := l.account_key, index := b, writable := false } :
              SolanaSingleAddressTableLookup)).length := by
        simpa using hjb
      rw [List.getElem?_append_left hb, List.getElem?_map,
        List.getElem?_eq_getElem hjb, List.getD_eq_getElem _ _ hjb]
      rfl
    · rw [if_neg hlt]
      have hb : (l.readonly_indexes.map fun b =>
          ({ address_table_key := l.account_key, index := b, writable := false } :
            SolanaSingleAddressTableLookup)).length ≤ j - off := by
        simp only [List.length_map]; omega
      rw [List.getElem?_append_right hb]
      have harith : j - off - (l.readonly_indexes.map fun b =>
          ({ address_table_key := l.account_key, index := b, writable := false } :
            SolanaSingleAddressTableLookup)).length =
          j - (off + l.readonly_indexes.length) := by
        simp only [List.length_map]; omega
      rw [harith]
      exact ih (off + l.readonly_indexes.length) (by omega)

/-- C1: for a parsed v0 message and an instruction account index
`i ≥ |static_accounts|`, resolution is exactly lookup of position
`j = i - |static_accounts|` in the logical lookup array — the concatenation
of all writable-index slices (in lookup order, entries carrying the table
key, index byte and `writable = true`) followed by all readonly-index
slices in the same order with `writable = false`, the readonly walk
advancing by `readonly_indexes.len()`.  Beyond both bands resolution fails
with the out-of-range error, and on a legacy message it always fails. -/
theorem c1_resolve_address_table_lookup_spec (tx : SolanaTransaction) (i : Nat) :
    (∀ lm, tx.message = .legacy lm →
        resolve_address_table_lookup tx i = .error .legacyLookupOutOfBounds)
  ∧ (∀ m, tx.message = .v0 m → m.account_keys.length ≤ i →
        resolve_address_table_lookup tx i =
          match (logicalLookupList m)[i - m.account_keys.length]? with
          | some r => .ok r
          | none => .error .v0LookupOutOfBounds) := by
  constructor
  · intro lm hm
    simp only [resolve_address_table_lookup, hm]
  · intro m hm _hle
    simp only [resolve_address_table_lookup, hm, logicalLookupList]
    have hw := resolve_writable_loop_eq (i - m.account_keys.length)
      m.address_table_lookups 0 (Nat.zero_le _)
    rw [Nat.sub_zero] at hw
    cases hwj : (m.address_table_lookups.flatMap fun l =>
        l.writable_indexes.map fun b =>
          ({ address_table_key := l.account_key, index := b, writable := true } :
            SolanaSingleAddressTableLookup))[i - m.account_keys.length]? with
    | some r =>
      have hlt : i - m.account_keys.length <
          (m.address_table_lookups.flatMap fun l =>
            l.writable_indexes.map fun b =>
              ({ address_table_key := l.account_key, index := b, writable := true } :
                SolanaSingleAddressTableLookup)).length := by
        by_contra hc
        push_neg at hc
        rw [List.getElem?_eq_none hc] at hwj
        cases hwj
      rw [List.getElem?_append_left hlt, hwj]
      simp only [hw, hwj]
    | none =>
      have hge : (m.address_table_lookups.flatMap fun l =>
          l.writable_indexes.map fun b =>
            ({ address_table_key := l.account_key, index := b, writable := true } :
              SolanaSingleAddressTableLookup)).length ≤ i - m.account_keys.length := by
        by_contra hc
        push_neg at hc
        rw [List.getElem?_eq_getElem hc] at hwj
        cases hwj
      have hgetw : total_writable_indexes m.address_table_lookups ≤
          i - m.account_keys.length := by
        rw [← writable_flatMap_length]; exact hge
      have hr := resolve_readonly_loop_eq (i - m.account_keys.length)
        m.address_table_lookups (total_writable_indexes m.address_table_lookups) hgetw
      rw [List.getElem?_append_right hge]
      rw [writable_flatMap_length]
      simp only [hw, hwj, hr]

theorem c1_resolve_address_table_lookup_spec_witness :
    resolve_address_table_lookup
      { message := .v0
          { header := ⟨1, 0, 0⟩,
            account_keys := [List.replicate 32 1],
            recent_blockhash := List.replicate 32 9,
            instructions := [],
            address_table_lookups :=
              [{ account_key := List.replicate 32 2,
                 writable_indexes := [5], readonly_indexes := [7] },
               { account_key := List.replicate 32 3,
                 writable_indexes := [9], readonly_indexes := [11] }] },
        signatures := [] } 3 =
      .ok { address_table_key := List.replicate 32 2, index := 7, writable := false } := by
  have h := (c1_resolve_address_table_lookup_spec
    { message := .v0
        { header := ⟨1, 0, 0⟩,
          account_keys := [List.replicate 32 1],
          recent_blockhash := List.replicate 32 9,
          instructions := [],
          address_table_lookups :=
            [{ account_key := List.replicate 32 2,
               writable_indexes := [5], readonly_indexes := [7] },
             { account_key := List.replicate 32 3,
               writable_indexes := [9], readonly_indexes := [11] }] },
      signatures := [] } 3).2 _ rfl (by norm_num)
  rw [h]
  rfl


/-! ## C3, C4, C5, C6: entry point and native-program interpretation -/

/-- C3 (failing input): `parse_transaction` CAN panic, contrary to the
no-panics propagation policy.  In full-transaction mode the input `"00"`
(one zero byte: an empty signatures array and nothing after it) makes the
source read `tx_body[0]` on an empty slice, which aborts instead of
returning an error. -/
theorem c3_parse_transaction_panics_on_empty_message_body :
    parse_transaction "00" true = .panic ∧ ("00" : String) ≠ "" := by
  exact ⟨rfl, by decide⟩

/-- C4 (counterexample): a System-program instruction whose 4-byte
little-endian tag is 13 — a tag other than 2 — is NOT silently ignored: the
bincode deserialization fails and the interpreter returns the
could-not-parse error for the whole transaction. -/
theorem c4_nontransfer_tag_counterexample :
    read_u32_le [13, 0, 0, 0] = some (13, []) ∧ (13 : Nat) ≠ 2 ∧
    interpret_instruction { program_id_index := 2, accounts := [0, 1], data := [13, 0, 0, 0] }
      SOL_SYSTEM_PROGRAM_KEY
      [.Static { account_key := List.replicate 32 7, signer := true, writable := true },
       .Static { account_key := List.replicate 32 8, signer := false, writable := true }] =
      .error .couldNotParseSystemInstruction := by
  exact ⟨rfl, by decide, rfl⟩

/-- C4 (amended): for a System-program instruction, instruction data whose
tag is not 2 is ignored (no SOL transfer, no error) exactly when the data
deserializes as a valid `SystemInstruction`; data that fails bincode
deserialization — in particular any tag above 12, the largest variant
index — yields the could-not-parse error instead. -/
theorem c4_system_nontransfer_tags (i : CompiledInstruction)
    (addrs : List AddressAccount) :
    (bincode_deserialize_system_instruction i.data = none →
        interpret_instruction i SOL_SYSTEM_PROGRAM_KEY addrs =
          .error .couldNotParseSystemInstruction)
  ∧ (∀ si, bincode_deserialize_system_instruction i.data = some si →
        (∀ l, si ≠ .Transfer l) →
        interpret_instruction i SOL_SYSTEM_PROGRAM_KEY addrs = .ok (none, none))
  ∧ (∀ t r, read_u32_le i.data = some (t, r) → 12 < t →
        bincode_deserialize_system_instruction i.data = none) := by
  refine ⟨?_, ?_, ?_⟩
  · intro hnone
    simp only [interpret_instruction, if_pos rfl, hnone]
    simp
  · intro si hsome hne
    simp only [interpret_instruction, if_pos rfl, hsome]
    cases si with
    | Transfer l => exact absurd rfl (hne l)
    | CreateAccount a b c => rfl
    | Assign a => rfl
    | CreateAccountWithSeed a b c d e => rfl
    | AdvanceNonceAccount => rfl
    | WithdrawNonceAccount a => rfl
    | InitializeNonceAccount a => rfl
    | AuthorizeNonceAccount a => rfl
    | Allocate a => rfl
    | AllocateWithSeed a b c d => rfl
    | AssignWithSeed a b c => rfl
    | TransferWithSeed a b c => rfl
    | UpgradeNonceAccount => rfl
  · intro t r hread ht
    simp only [bincode_deserialize_system_instruction, hread]
    split <;> first | rfl | omega

theorem c4_system_nontransfer_tags_witness :
    interpret_instruction { program_id_index := 2, accounts := [], data := [4, 0, 0, 0] }
      SOL_SYSTEM_PROGRAM_KEY [] = .ok (none, none) :=
  (c4_system_nontransfer_tags { program_id_index := 2, accounts := [], data := [4, 0, 0, 0] }
    []).2.1 .AdvanceNonceAccount rfl (fun l h => by cases h)

/-- C5: a System-program instruction whose data decodes as `Transfer`
(tag 2, u64 lamports) emits exactly one SOL transfer with
`from = accounts[0]`, `to = accounts[1]` and the decimal string of the
lamports as amount when exactly 2 account references are present, and fails
with the invalid-account-count error otherwise.  The concrete legacy
message of scenario S1 (data `02 00 00 00 6f 00 00 00 00 00 00 00`)
produces amount `"111"`. -/
theorem c5_system_transfer_spec (i : CompiledInstruction)
    (addrs : List AddressAccount) (lamports : Nat)
    (hdec : bincode_deserialize_system_instruction i.data = some (.Transfer lamports)) :
    (addrs.length = 2 →
        interpret_instruction i SOL_SYSTEM_PROGRAM_KEY addrs =
          .ok (some { «from» := (addrs.getD 0 default).to_display,
                      «to» := (addrs.getD 1 default).to_display,
                      amount := Nat.repr lamports }, none))
  ∧ (addrs.length ≠ 2 →
        interpret_instruction i SOL_SYSTEM_PROGRAM_KEY addrs =
          .error .systemTransferArgCount)
  ∧ (SolanaTransaction.all_instructions_and_transfers
      { message := .legacy
          { header := ⟨1, 0, 1⟩,
            account_keys := [List.replicate 32 7, List.replicate 32 8, SOL_SYSTEM_PROGRAM_KEY],
            recent_blockhash := List.replicate 32 0,
            instructions := [{ program_id_index := 2, accounts := [0, 1],
                               data := [2, 0, 0, 0, 0x6f, 0, 0, 0, 0, 0, 0, 0] }] },
        signatures := [] } =
      .ok ([{ program_key := SOL_SYSTEM_PROGRAM_KEY,
              accounts :=
                [{ account_key := List.replicate 32 7, signer := true, writable := true },
                 { account_key := List.replicate 32 8, signer := false, writable := true }],
              instruction_data_hex := "02000000" ++ "6f00000000000000",
              address_table_lookups := [] }],
            [{ «from» := .key (List.replicate 32 7), «to» := .key (List.replicate 32 8),
               amount := "111" }],
            [])) := by
  refine ⟨?_, ?_, by rfl⟩
  · intro hlen
    simp only [interpret_instruction, if_pos rfl, hdec, hlen]
    rfl
  · intro hlen
    simp only [interpret_instruction, if_pos rfl, hdec]
    rw [if_pos hlen]
    simp

theorem c5_system_transfer_spec_witness :
    interpret_instruction
      { program_id_index := 2, accounts := [0, 1],
        data := [2, 0, 0, 0, 0x6f, 0, 0, 0, 0, 0, 0, 0] }
      SOL_SYSTEM_PROGRAM_KEY
      [.Static { account_key := List.replicate 32 7, signer := true, writable := true },
       .Static { account_key := List.replicate 32 8, signer := false, writable := true }] =
      .ok (some { «from» := .key (List.replicate 32 7), «to» := .key (List.replicate 32 8),
                  amount := "111" }, none) := by
  have h := (c5_system_transfer_spec
    { program_id_index := 2, accounts := [0, 1],
      data := [2, 0, 0, 0, 0x6f, 0, 0, 0, 0, 0, 0, 0] }
    [.Static { account_key := List.replicate 32 7, signer := true, writable := true },
     .Static { account_key := List.replicate 32 8, signer := false, writable := true }]
    111 rfl).1 rfl
  rw [h]
  rfl

/-- C6: Token / Token-2022 instruction data beginning with tag 26 and
sub-tag 1 decodes as u64 LE amount, u8 decimals, u64 LE fee, and emits one
SPL transfer with `from = accounts[0]`, `token_mint = Some(accounts[1])`,
`to = accounts[2]`, `owner = accounts[3]`, `signers = accounts[4..]`, and
decimals and fee as decimal strings; tag 26 with any other sub-tag emits no
SPL record and no error; truncated amount, decimals or fee bytes produce
the structural error naming that field. -/
theorem c6_transfer_checked_with_fee_spec (sub : Nat) (r1 : List Nat)
    (accounts : List AddressAccount) (program_key : Pubkey)
    (i : CompiledInstruction)
    (hkey : program_key = TOKEN_PROGRAM_KEY ∨ program_key = TOKEN_2022_PROGRAM_KEY) :
    (sub ≠ 1 → parse_spl_transfer_data (26 :: sub :: r1) = .ok .Unsupported)
  ∧ (sub ≠ 1 → i.data = 26 :: sub :: r1 →
        interpret_instruction i program_key accounts = .ok (none, none))
  ∧ (read_u64_le r1 = none →
        parse_spl_transfer_data (26 :: 1 :: r1) =
          .error (.splField "TransferCheckedWithFee -- amount"))
  ∧ (∀ amount r2, read_u64_le r1 = some (amount, r2) →
        (r2 = [] →
            parse_spl_transfer_data (26 :: 1 :: r1) =
              .error (.splField "TransferCheckedWithFee -- decimals"))
      ∧ (∀ decimals r3, r2 = decimals :: r3 →
            (read_u64_le r3 = none →
                parse_spl_transfer_data (26 :: 1 :: r1) =
                  .error (.splField "TransferCheckedWithFee -- fee"))
          ∧ (∀ fee r4, read_u64_le r3 = some (fee, r4) →
                parse_spl_transfer_data (26 :: 1 :: r1) =
                  .ok (.TransferCheckedWithFee amount decimals fee))))
  ∧ (∀ amount decimals fee, 4 ≤ accounts.length →
        parse_spl_instruction_data (.TransferCheckedWithFee amount decimals fee) accounts =
          .ok (some { amount := Nat.repr amount,
                      «to» := (accounts.getD 2 default).to_display,
                      «from» := (accounts.getD 0 default).to_display,
                      token_mint := some (accounts.getD 1 default).to_display,
                      signers := (accounts.drop 4).map AddressAccount.to_display,
                      owner := (accounts.getD 3 default).to_display,
                      decimals := some (Nat.repr decimals),
                      fee := some (Nat.repr fee) })) := by
  have hnotsys : program_key ≠ SOL_SYSTEM_PROGRAM_KEY := by
    rcases hkey with h | h <;> subst h <;> decide
  refine ⟨?_, ?_, ?_, ?_, ?_⟩
  · intro hsub
    simp only [parse_spl_transfer_data]
    rw [if_neg hsub]
  · intro hsub hdata
    have hu : parse_spl_transfer_data (26 :: sub :: r1) = .ok .Unsupported := by
      simp only [parse_spl_transfer_data]
      rw [if_neg hsub]
    simp only [interpret_instruction, if_neg hnotsys, if_pos hkey, hdata, hu,
      parse_spl_instruction_data]
  · intro hnone
    simp only [parse_spl_transfer_data, if_pos rfl, hnone]
    simp
  · intro amount r2 hsome
    constructor
    · intro hr2
      subst hr2
      simp only [parse_spl_transfer_data, if_pos rfl, hsome]
      simp
    · intro decimals r3 hr2
      subst hr2
      constructor
      · intro hfee
        simp only [parse_spl_transfer_data, if_pos rfl, hsome, hfee]
        simp
      · intro fee r4 hfee
        simp only [parse_spl_transfer_data, if_pos rfl, hsome, hfee]
        simp
  · intro amount decimals fee hlen
    have hsig : get_spl_multisig_signers_if_exist accounts 4 =
        .ok ((accounts.drop 4).map AddressAccount.to_display) := by
      unfold get_spl_multisig_signers_if_exist
      rw [if_neg (by omega)]
    simp only [parse_spl_instruction_data, hsig]

theorem c6_transfer_checked_with_fee_spec_witness :
    parse_spl_transfer_data
        (26 :: 1 :: [9, 0, 0, 0, 0, 0, 0, 0, 6, 2, 0, 0, 0, 0, 0, 0, 0, 0]) =
      .ok (.TransferCheckedWithFee 9 6 2) :=
  ((((c6_transfer_checked_with_fee_spec 1 [9, 0, 0, 0, 0, 0, 0, 0, 6, 2, 0, 0, 0, 0, 0, 0, 0, 0]
      [] TOKEN_PROGRAM_KEY { program_id_index := 0, accounts := [], data := [] }
      (Or.inl rfl)).2.2.2.1 9 [6, 2, 0, 0, 0, 0, 0, 0, 0, 0] rfl).2 6
      [2, 0, 0, 0, 0, 0, 0, 0, 0] rfl).2 2 [0] rfl)


/-! ## C7, C8, C9: exhaustive consumption and IDL loading -/

/-- C7: every successful top-level parse consumes the entire input.  A
legacy or v0 message that parsed successfully fails with the corresponding
extraneous-bytes error once any nonempty byte suffix is appended (so a
valid message with one trailing `0x00` fails), and IDL argument decoding
succeeds only with the cursor exactly at the end of the instruction data —
when the argument loop ends elsewhere, the result is the
extraneous-bytes-after-arguments error. -/
theorem c7_exhaustive_consumption (l extra : List Nat) (m : VersionedMessage)
    (fuel : Nat) (data : List Nat) (instr : IdlInstruction) (idl : Idl)
    (args : List (String × Json)) (pos : Nat) :
    (parse_solana_legacy_transaction l = .ok m → extra ≠ [] →
        parse_solana_legacy_transaction (l ++ extra) = .error .extraneousLegacy)
  ∧ (parse_solana_v0_transaction l = .ok m → extra ≠ [] →
        parse_solana_v0_transaction (l ++ extra) = .error .extraneousV0)
  ∧ (parse_data_into_args fuel data instr idl = .ok args →
        parse_data_into_args_core fuel data instr idl = .ok (args, data.length))
  ∧ (parse_data_into_args_core fuel data instr idl = .ok (args, pos) →
        pos ≠ data.length →
        parse_data_into_args fuel data instr idl = .error .extraneousBytesAfterArguments) := by
  refine ⟨parse_solana_legacy_transaction_append l extra m,
          parse_solana_v0_transaction_append l extra m, ?_, ?_⟩
  · intro h
    unfold parse_data_into_args at h
    cases hc : parse_data_into_args_core fuel data instr idl with
    | error e => simp [hc] at h
    | ok p =>
      obtain ⟨a, pr⟩ := p
      simp only [hc] at h
      by_cases hp : pr = data.length
      · subst hp
        simp only [ne_eq, not_true_eq_false, if_false] at h
        simp only [Except.ok.injEq] at h
        subst h
        rfl
      · rw [if_pos hp] at h
        cases h
  · intro hcore hne
    unfold parse_data_into_args
    simp only [hcore]
    rw [if_pos hne]

theorem c7_exhaustive_consumption_witness :
    parse_solana_legacy_transaction
        (([0, 0, 0, 0] ++ List.replicate 32 0 ++ [0]) ++ [0]) =
      .error .extraneousLegacy
  ∧ parse_solana_v0_transaction
        (([0, 0, 0, 0] ++ List.replicate 32 0 ++ [0, 0]) ++ [0]) =
      .error .extraneousV0
  ∧ parse_data_into_args 100 [1, 2]
        { name := "f", discriminator := some [1], accounts := [], args := [] }
        { program_id := "p", name := "n", instructions := [], types := [] } =
      .error .extraneousBytesAfterArguments := by
  refine ⟨?_, ?_, ?_⟩
  · exact (c7_exhaustive_consumption ([0, 0, 0, 0] ++ List.replicate 32 0 ++ [0]) [0]
      (.legacy { header := ⟨0, 0, 0⟩, account_keys := [],
                 recent_blockhash := List.replicate 32 0, instructions := [] })
      0 [] default default [] 0).1 (by rfl) (by simp)
  · exact (c7_exhaustive_consumption ([0, 0, 0, 0] ++ List.replicate 32 0 ++ [0, 0]) [0]
      (.v0 { header := ⟨0, 0, 0⟩, account_keys := [],
             recent_blockhash := List.replicate 32 0, instructions := [],
             address_table_lookups := [] })
      0 [] default default [] 0).2.1 (by rfl) (by simp)
  · exact (c7_exhaustive_consumption [] []
      (.legacy { header := ⟨0, 0, 0⟩, account_keys := [],
                 recent_blockhash := [], instructions := [] }) 100 [1, 2]
      { name := "f", discriminator := some [1], accounts := [], args := [] }
      { program_id := "p", name := "n", instructions := [], types := [] }
      [] 1).2.2.2 (by rfl) (by decide)

/-- C8 (counterexample): an IDL whose only cycle runs through a container —
`struct A { b: Vec<A> }` — LOADS successfully: `TypeResolver::new` (and with
it `decode_idl_data`) accepts it, because `cycle_recursive_check` only
recurses on fields whose type is directly `Defined` and skips `Vec`,
`Option` and `Array` payloads.  The claim says this IDL fails to load. -/
theorem c8_container_cycle_counterexample :
    type_resolver_new
        { program_id := "p", name := "n", instructions := [],
          types := [{ name := "A",
                      ty := .Struct [{ name := "b", ty := .Vec (.Defined (.Str "A")) }] }] } =
      .ok [("A", { name := "A",
                   ty := .Struct [{ name := "b", ty := .Vec (.Defined (.Str "A")) }] })] := by
  simp [type_resolver_new, build_type_cache, check_idl_for_cycles, cycle_recursive_check,
    cycle_check_names, IdlTypeDefinitionTy.defined_refs, List.lookup]

/-- C8 (amended): the load-time cycle check rejects cycles formed by
directly-`Defined` field types — `struct A { b: B }` with
`struct B { a: A }` fails with the type-cycle error — but it does NOT
traverse into `Option`, `Vec` or `Array` containers: a field of container
type contributes no referenced names, so a cycle reachable only through a
container (such as `struct A { b: Vec<A> }`) passes the load-time check. -/
theorem c8_cycle_check_direct_defined_only :
    (type_resolver_new
        { program_id := "p", name := "n", instructions := [],
          types := [{ name := "A", ty := .Struct [{ name := "b", ty := .Defined (.Str "B") }] },
                    { name := "B", ty := .Struct [{ name := "a", ty := .Defined (.Str "A") }] }] } =
      .error (.typeCycle "A"))
  ∧ (type_resolver_new
        { program_id := "p", name := "n", instructions := [],
          types := [{ name := "A",
                      ty := .Struct [{ name := "b", ty := .Vec (.Defined (.Str "A")) }] }] }).isOk
  ∧ (∀ (nm : String) (t : IdlType) (n : Nat),
        IdlTypeDefinitionTy.defined_refs (.Struct [{ name := nm, ty := .Vec t }]) = []
      ∧ IdlTypeDefinitionTy.defined_refs (.Struct [{ name := nm, ty := .Option t }]) = []
      ∧ IdlTypeDefinitionTy.defined_refs (.Struct [{ name := nm, ty := .Array t n }]) = []) := by
  refine ⟨?_, ?_, fun nm t n => ⟨rfl, rfl, rfl⟩⟩
  · simp [type_resolver_new, build_type_cache, check_idl_for_cycles, cycle_recursive_check,
      cycle_check_names, IdlTypeDefinitionTy.defined_refs, List.lookup, Defined.to_string]
  · have h : type_resolver_new
        { program_id := "p", name := "n", instructions := [],
          types := [{ name := "A",
                      ty := .Struct [{ name := "b", ty := .Vec (.Defined (.Str "A")) }] }] } =
        .ok [("A", { name := "A",
                     ty := .Struct [{ name := "b", ty := .Vec (.Defined (.Str "A")) }] })] := by
      simp [type_resolver_new, build_type_cache, check_idl_for_cycles, cycle_recursive_check,
        cycle_check_names, IdlTypeDefinitionTy.defined_refs, List.lookup]
    rw [h]
    rfl

/-- C9 (counterexample): a JSON object with a valid (empty) `instructions`
array and no top-level `types` key does NOT load: `decode_idl_data` calls
`validate_idl_array` on `types` unconditionally and fails with the
key-not-found error, so the types section is required, not optional. -/
theorem c9_missing_types_counterexample :
    decode_idl_data [("instructions", Json.arr [])] "pid" "pname" =
      .error (.keyNotFound "types") := by
  rfl

/-- C9 (amended): both `instructions` and `types` are required top-level
keys.  For any top-level object whose `instructions` key holds a valid
(empty) array but which has no `types` key, loading fails with the
key-not-found error for `types`. -/
theorem c9_types_key_required (m : List (String × Json)) (pid pname : String)
    (hins : List.lookup "instructions" m = some (.arr []))
    (hty : List.lookup "types" m = none) :
    decode_idl_data m pid pname = .error (.keyNotFound "types") := by
  unfold decode_idl_data validate_idl_array Json.get?
  rw [hins, hty]
  rfl

theorem c9_types_key_required_witness :
    decode_idl_data [("instructions", Json.arr []), ("version", Json.str "0.1.0")]
        "pid" "pname" = .error (.keyNotFound "types") :=
  c9_types_key_required [("instructions", Json.arr []), ("version", Json.str "0.1.0")]
    "pid" "pname" rfl rfl

end Solana
